import Mathlib

/-!
Verification of the MacBinary decoder (`wezm/macbinary`).

The Rust sources are shallowly embedded: byte buffers are `List Nat`
whose entries are below 256 (`u8`), machine integers are `Nat`/`Int`
with explicit bounds or `% 2^w` where overflow matters, and fallible
Rust functions return `Except ParseError`.  Definitions follow
`src/error.rs`, `src/binary/read.rs`, `src/lib.rs`, `src/resource.rs`
and `src/macroman.rs`; the external CRC primitive is modelled from its
specification (CRC-16/XMODEM).
-/

set_option maxRecDepth 100000

namespace MacB

/-- Errors that originate when parsing binary data (src/error.rs `ParseError`). -/
inductive ParseError where
  | badEof
  | badValue
  | badVersion
  | badOffset
  | badIndex
  | overflow
  | crcMismatch
deriving DecidableEq

instance {ε α : Type} [DecidableEq ε] [DecidableEq α] : DecidableEq (Except ε α) :=
  fun x y =>
    match x, y with
    | .ok a, .ok b =>
      if h : a = b then .isTrue (by rw [h]) else .isFalse (by intro hc; cases hc; exact h rfl)
    | .error a, .error b =>
      if h : a = b then .isTrue (by rw [h]) else .isFalse (by intro hc; cases hc; exact h rfl)
    | .ok _, .error _ => .isFalse (by intro hc; cases hc)
    | .error _, .ok _ => .isFalse (by intro hc; cases hc)

/-- A scope: an offset-aware view into a byte buffer (src/binary/read.rs `ReadScope`).
`base` is the absolute offset of `data` in the original buffer. -/
structure ReadScope where
  base : Nat
  data : List Nat
deriving DecidableEq

/-- ReadScope::new. -/
def ReadScope.new (data : List Nat) : ReadScope := ⟨0, data⟩

/-- ReadScope::offset: shrink from the front; `data.get(offset..).unwrap_or(&[])`
clamps an out-of-range start to the empty slice, which is exactly `List.drop`. -/
def ReadScope.offset (s : ReadScope) (offset : Nat) : ReadScope :=
  ⟨s.base + offset, s.data.drop offset⟩

/-- ReadScope::offset_length: the single bounds-checking primitive. -/
def ReadScope.offset_length (s : ReadScope) (offset length : Nat) :
    Except ParseError ReadScope :=
  if offset < s.data.length ∨ length = 0 then
    let data := s.data.drop offset
    if length ≤ data.length then
      .ok ⟨s.base + offset, data.take length⟩
    else
      .error .badEof
  else
    .error .badOffset

/-- A cursor: a scope plus a mutable read position (src/binary/read.rs `ReadCtxt`). -/
structure ReadCtxt where
  scope : ReadScope
  offset : Nat
deriving DecidableEq

/-- ReadScope::ctxt. -/
def ReadScope.ctxt (s : ReadScope) : ReadCtxt := ⟨s, 0⟩

/-- ReadCtxt::scope() (named `curScope` here because the structure field is
already called `scope`): the scope of everything at and after the cursor. -/
def ReadCtxt.curScope (c : ReadCtxt) : ReadScope := c.scope.offset c.offset

/-- ReadCtxt::check: `BadValue` when the condition fails. -/
def ReadCtxt.check (_c : ReadCtxt) (cond : Bool) : Except ParseError Unit :=
  if cond then .ok () else .error .badValue

/-- Byte access `data[off]`; reads in the source are only performed after
`check_avail`, so the default is never observable. -/
def u8At (data : List Nat) (off : Nat) : Nat := data.getD off 0

/-- Big-endian 16-bit value at `off`; for bytes < 256 this equals the
source's `(hi << 8) | lo`. -/
def u16At (data : List Nat) (off : Nat) : Nat :=
  256 * u8At data off + u8At data (off + 1)

/-- Big-endian 24-bit value at `off`. -/
def u24At (data : List Nat) (off : Nat) : Nat :=
  65536 * u8At data off + 256 * u8At data (off + 1) + u8At data (off + 2)

/-- Big-endian 32-bit value at `off`. -/
def u32At (data : List Nat) (off : Nat) : Nat :=
  16777216 * u8At data off + 65536 * u8At data (off + 1) +
    256 * u8At data (off + 2) + u8At data (off + 3)

/-- Reinterpret a `u16` as an `i16` (Rust `as i16`). -/
def toI16 (v : Nat) : Int := if v < 32768 then (v : Int) else (v : Int) - 65536

/-- ReadCtxt::read_u8 (check_avail + read_unchecked_u8). -/
def ReadCtxt.read_u8 (c : ReadCtxt) : Except ParseError (Nat × ReadCtxt) :=
  if c.offset + 1 ≤ c.scope.data.length then
    .ok (u8At c.scope.data c.offset, ⟨c.scope, c.offset + 1⟩)
  else .error .badEof

/-- ReadCtxt::read_u16be. -/
def ReadCtxt.read_u16be (c : ReadCtxt) : Except ParseError (Nat × ReadCtxt) :=
  if c.offset + 2 ≤ c.scope.data.length then
    .ok (u16At c.scope.data c.offset, ⟨c.scope, c.offset + 2⟩)
  else .error .badEof

/-- ReadCtxt::read_i16be (`read_u16be as i16`). -/
def ReadCtxt.read_i16be (c : ReadCtxt) : Except ParseError (Int × ReadCtxt) :=
  (c.read_u16be).map (fun p => (toI16 p.1, p.2))

/-- ReadCtxt::read_u24be. -/
def ReadCtxt.read_u24be (c : ReadCtxt) : Except ParseError (Nat × ReadCtxt) :=
  if c.offset + 3 ≤ c.scope.data.length then
    .ok (u24At c.scope.data c.offset, ⟨c.scope, c.offset + 3⟩)
  else .error .badEof

/-- ReadCtxt::read_u32be. -/
def ReadCtxt.read_u32be (c : ReadCtxt) : Except ParseError (Nat × ReadCtxt) :=
  if c.offset + 4 ≤ c.scope.data.length then
    .ok (u32At c.scope.data c.offset, ⟨c.scope, c.offset + 4⟩)
  else .error .badEof

/-- ReadCtxt::read_scope: any `offset_length` failure is reported as `ReadEof`,
i.e. `BadEof`. -/
def ReadCtxt.read_scope (c : ReadCtxt) (length : Nat) :
    Except ParseError (ReadScope × ReadCtxt) :=
  match c.scope.offset_length c.offset length with
  | .ok s => .ok (s, ⟨c.scope, c.offset + length⟩)
  | .error _ => .error .badEof

/-- ReadCtxt::read_slice. -/
def ReadCtxt.read_slice (c : ReadCtxt) (length : Nat) :
    Except ParseError (List Nat × ReadCtxt) :=
  (c.read_scope length).map (fun p => (p.1.data, p.2))

/-- A lazy fixed-stride array view (src/binary/read.rs `ReadArray`); the
element type's stride is passed explicitly to the operations. -/
structure ReadArray where
  scope : ReadScope
  length : Nat
deriving DecidableEq

/-- ReadCtxt::read_array / read_array_dep: carve `length * size` bytes. -/
def ReadCtxt.read_array (c : ReadCtxt) (size length : Nat) :
    Except ParseError (ReadArray × ReadCtxt) :=
  (c.read_scope (length * size)).map (fun p => ((⟨p.1, length⟩ : ReadArray), p.2))

/-- ReadArray::subarray: zero-copy sub-array from a start index; an
out-of-range index yields the empty array. -/
def ReadArray.subarray (size : Nat) (arr : ReadArray) (index : Nat) : ReadArray :=
  if index < arr.length then
    ⟨arr.scope.offset (index * size), arr.length - index⟩
  else
    ⟨ReadScope.new [], 0⟩

/-- next_u16_multiple_of_128 (src/lib.rs): round up to a multiple of 128 with
a checked add; `u16` overflow is `value + (128 - rem) > 65535`. -/
def next_u16_multiple_of_128 (value : Nat) : Except ParseError Nat :=
  let rem := value % 128
  if rem = 0 then .ok value
  else if value + (128 - rem) ≤ 65535 then .ok (value + (128 - rem))
  else .error .overflow

/-- next_u32_multiple_of_128 (src/lib.rs): same for `u32`. -/
def next_u32_multiple_of_128 (value : Nat) : Except ParseError Nat :=
  let rem := value % 128
  if rem = 0 then .ok value
  else if value + (128 - rem) ≤ 4294967295 then .ok (value + (128 - rem))
  else .error .overflow

/-- A four-character code (src/lib.rs `FourCC`): a 32-bit number. -/
structure FourCC where
  val : Nat
deriving DecidableEq

/-- The `mBIN` MacBinary III signature (src/lib.rs `MBIN_SIG`). -/
def MBIN_SIG : Nat := 0x6d42494e

/-- MacBinary version (src/lib.rs `Version`). -/
inductive Version where
  | I
  | II
  | III
deriving DecidableEq

/-- The discriminant values used by the derived `Ord` on `Version`
(`I = 1, II = 2, III = 3`); `version >= Version::II` is `2 ≤ num`. -/
def Version.num : Version → Nat
  | .I => 1
  | .II => 2
  | .III => 3

/-- Modelled from the spec: one shift step of the CRC-16/XMODEM register
(polynomial 0x1021 = 4129); the CRC primitive itself is an external
collaborator of the source, specified only as `crc16(bytes) -> u16`. -/
def crcStep (c : Nat) : Nat :=
  if c < 32768 then 2 * c else ((2 * c) % 65536) ^^^ 4129

/-- Modelled from the spec: feed one byte into the CRC-16/XMODEM register
(xor the byte into the high half, then shift eight times). -/
def crcUpdate (c b : Nat) : Nat :=
  crcStep (crcStep (crcStep (crcStep
    (crcStep (crcStep (crcStep (crcStep (c ^^^ (256 * b)))))))))

/-- Modelled from the spec: CRC-16/XMODEM over a byte string (initial value 0,
no reflection, no final xor); src/lib.rs `calc_crc` delegates to the `crc`
crate's `CRC_16_XMODEM`. -/
def calc_crc (data : List Nat) : Nat := data.foldl crcUpdate 0

/-- Determine if the supplied data looks like MacBinary data
(src/lib.rs `detect`). -/
def detect (data : List Nat) : Option Version :=
  if 128 ≤ data.length ∧ data.getD 0 0 = 0 then
    if u32At data 102 = MBIN_SIG then some .III
    else if data.getD 74 0 ≠ 0 ∨ data.getD 82 0 ≠ 0 then none
    else if u16At data 124 = calc_crc (data.take 124) then some .II
    else if ((data.drop 101).take 25).all (fun b => b = 0) ∧
        1 ≤ data.getD 2 0 ∧ data.getD 2 0 ≤ 63 ∧
        u32At data 83 ≤ 0x007FFFFF ∧ u32At data 87 ≤ 0x007FFFFF then
      some .I
    else none
  else none

/-- MacBinary header (src/lib.rs `Header`); `protected` is a Lean keyword, so
that field is called `protected_flag`. -/
structure Header where
  filename : List Nat
  secondary_header_len : Nat
  data_fork_len : Nat
  rsrc_fork_len : Nat
  file_type : FourCC
  file_creator : FourCC
  finder_flags : Nat
  vpos : Nat
  hpos : Nat
  window_or_folder_id : Nat
  protected_flag : Bool
  created : Nat
  modified : Nat
  comment_len : Nat
  finder_flags2 : Nat
  signature : FourCC
  script : Nat
  extended_finder_flags : Nat
  version : Nat
  min_version : Nat
  crc : Nat
deriving DecidableEq

/-- Header::read (src/lib.rs, `impl ReadBinary for Header`): decode the
128-byte header field by field in fixed order. -/
def Header.read (ctxt : ReadCtxt) : Except ParseError (Header × ReadCtxt) := do
  -- old version number, must be zero for compatibility
  let (_, c) ← ctxt.read_u8
  -- length of filename (must be in the range 1-31)
  let (filename_len, c) ← c.read_u8
  let _ ← c.check (decide (1 ≤ filename_len ∧ filename_len ≤ 31))
  -- filename (only `length` bytes are significant)
  let (filename_data, c) ← c.read_slice 63
  let (file_type, c) ← (c.read_u32be).map (fun p => ((⟨p.1⟩ : FourCC), p.2))
  let (file_creator, c) ← (c.read_u32be).map (fun p => ((⟨p.1⟩ : FourCC), p.2))
  let (finder_flags, c) ← c.read_u8
  -- zero fill
  let (_, c) ← c.read_u8
  let (vpos, c) ← c.read_u16be
  let (hpos, c) ← c.read_u16be
  let (window_or_folder_id, c) ← c.read_u16be
  let (protected_byte, c) ← c.read_u8
  -- zero fill
  let (_, c) ← c.read_u8
  let (data_fork_len, c) ← c.read_u32be
  let (rsrc_fork_len, c) ← c.read_u32be
  let (created, c) ← c.read_u32be
  let (modified, c) ← c.read_u32be
  let (comment_len, c) ← c.read_u16be
  let (finder_flags2, c) ← c.read_u8
  let (signature, c) ← (c.read_u32be).map (fun p => ((⟨p.1⟩ : FourCC), p.2))
  let (script, c) ← c.read_u8
  let (extended_finder_flags, c) ← c.read_u8
  -- bytes 108-115 unused
  let (_, c) ← c.read_slice 8
  -- length of total files when packed files are unpacked (unused)
  let (_, c) ← c.read_u32be
  let (secondary_header_len, c) ← c.read_u16be
  let (version, c) ← c.read_u8
  let (min_version, c) ← c.read_u8
  let (crc, c) ← c.read_u16be
  -- reserved for computer type and OS ID
  let (_, c) ← c.read_u16be
  .ok ({ filename := filename_data.take filename_len
         secondary_header_len, data_fork_len, rsrc_fork_len
         file_type, file_creator, finder_flags, vpos, hpos
         window_or_folder_id, protected_flag := protected_byte ≠ 0
         created, modified, comment_len, finder_flags2, signature
         script, extended_finder_flags, version, min_version, crc }, c)

/-- A parsed MacBinary file (src/lib.rs `MacBinary`). -/
structure MacBinary where
  version : Version
  header : Header
  data_fork : List Nat
  rsrc_fork : List Nat
deriving DecidableEq

/-- The tail of `MacBinary::read_dep` after the CRC check: skip the secondary
header, read the data fork, skip padding, read the resource fork. -/
def MacBinary.read_forks (c : ReadCtxt) (version : Version) (header : Header) :
    Except ParseError (MacBinary × ReadCtxt) := do
  -- skip secondary header if present, rounding up to next multiple of 128
  let skip ← next_u16_multiple_of_128 header.secondary_header_len
  let (_, c) ← c.read_slice skip
  -- read the data fork
  let (data_fork, c) ← c.read_slice header.data_fork_len
  -- skip padding
  let pad ← next_u32_multiple_of_128 header.data_fork_len
  let (_, c) ← c.read_slice (pad - header.data_fork_len)
  -- read the resource fork
  let (rsrc_fork, c) ← c.read_slice header.rsrc_fork_len
  .ok ({ version, header, data_fork, rsrc_fork }, c)

/-- MacBinary::read_dep (src/lib.rs, `impl ReadBinaryDep for MacBinary`). -/
def MacBinary.read_dep (ctxt : ReadCtxt) (version : Version) :
    Except ParseError (MacBinary × ReadCtxt) := do
  let crc_data ←
    (if 124 ≤ (ctxt.curScope).data.length
      then Except.ok ((ctxt.curScope).data.take 124)
      else Except.error ParseError.badEof)
  let (header, c) ← Header.read ctxt
  -- check the CRC
  if 2 ≤ version.num ∧ calc_crc crc_data ≠ header.crc then
    .error .crcMismatch
  else
    MacBinary.read_forks c version header

/-- Parse a MacBinary encoded file (src/lib.rs `parse`). -/
def parse (data : List Nat) : Except ParseError MacBinary :=
  match detect data with
  | none => .error .badVersion
  | some version => (MacBinary.read_dep (ReadScope.new data).ctxt version).map (·.1)

/-- A concrete 128-byte valid MacBinary III buffer: first byte zero,
filename length 1, filename `A`, `mBIN` signature at offset 102, zero-length
forks, stored CRC 0x5E8B over the first 124 bytes. -/
def bufIII : List Nat :=
  [0, 1, 65, 0, 0, 0, 0, 0, 0, 0, 0, 0, 0, 0, 0, 0,
   0, 0, 0, 0, 0, 0, 0, 0, 0, 0, 0, 0, 0, 0, 0, 0,
   0, 0, 0, 0, 0, 0, 0, 0, 0, 0, 0, 0, 0, 0, 0, 0,
   0, 0, 0, 0, 0, 0, 0, 0, 0, 0, 0, 0, 0, 0, 0, 0,
   0, 0, 0, 0, 0, 0, 0, 0, 0, 0, 0, 0, 0, 0, 0, 0,
   0, 0, 0, 0, 0, 0, 0, 0, 0, 0, 0, 0, 0, 0, 0, 0,
   0, 0, 0, 0, 0, 0, 109, 66, 73, 78, 0, 0, 0, 0, 0, 0,
   0, 0, 0, 0, 0, 0, 0, 0, 0, 0, 130, 129, 94, 139, 0, 0]

/-- The same buffer with the script byte (offset 106) set to 0x81 (high bit
set, low 7 bits nonzero); stored CRC 0x49A5. -/
def bufScript : List Nat :=
  [0, 1, 65, 0, 0, 0, 0, 0, 0, 0, 0, 0, 0, 0, 0, 0,
   0, 0, 0, 0, 0, 0, 0, 0, 0, 0, 0, 0, 0, 0, 0, 0,
   0, 0, 0, 0, 0, 0, 0, 0, 0, 0, 0, 0, 0, 0, 0, 0,
   0, 0, 0, 0, 0, 0, 0, 0, 0, 0, 0, 0, 0, 0, 0, 0,
   0, 0, 0, 0, 0, 0, 0, 0, 0, 0, 0, 0, 0, 0, 0, 0,
   0, 0, 0, 0, 0, 0, 0, 0, 0, 0, 0, 0, 0, 0, 0, 0,
   0, 0, 0, 0, 0, 0, 109, 66, 73, 78, 129, 0, 0, 0, 0, 0,
   0, 0, 0, 0, 0, 0, 0, 0, 0, 0, 130, 129, 73, 165, 0, 0]

/-- All entries of a byte buffer are below 256 (the `u8` range). -/
def Wf (data : List Nat) : Prop := ∀ b ∈ data, b < 256

instance : DecidablePred Wf := fun data =>
  inferInstanceAs (Decidable (∀ b ∈ data, b < 256))

/-- The value of a successfully decoded header purely in terms of the input
buffer: every field of `Header::read` sits at a fixed offset of the scope the
cursor was created on. -/
def mkHeader (data : List Nat) : Header where
  filename := ((data.drop 2).take 63).take (u8At data 1)
  secondary_header_len := u16At data 120
  data_fork_len := u32At data 83
  rsrc_fork_len := u32At data 87
  file_type := ⟨u32At data 65⟩
  file_creator := ⟨u32At data 69⟩
  finder_flags := u8At data 73
  vpos := u16At data 75
  hpos := u16At data 77
  window_or_folder_id := u16At data 79
  protected_flag := u8At data 81 ≠ 0
  created := u32At data 91
  modified := u32At data 95
  comment_len := u16At data 99
  finder_flags2 := u8At data 101
  signature := ⟨u32At data 102⟩
  script := u8At data 106
  extended_finder_flags := u8At data 107
  version := u8At data 122
  min_version := u8At data 123
  crc := u16At data 124

/-- Converts a Mac OS Roman character to a Unicode char
(src/macroman.rs `macroman_to_char`); `none` for the gaps in the table. -/
def macRomanToChar (b : Nat) : Option Char :=
  if b ≤ 127 then some (Char.ofNat b)
  else match b with
    | 128 => some 'Ä'
    | 129 => some 'Å'
    | 130 => some 'Ç'
    | 131 => some 'É'
    | 132 => some 'Ñ'
    | 133 => some 'Ö'
    | 134 => some 'Ü'
    | 135 => some 'á'
    | 136 => some 'à'
    | 137 => some 'â'
    | 138 => some 'ä'
    | 139 => some 'ã'
    | 140 => some 'å'
    | 141 => some 'ç'
    | 142 => some 'é'
    | 143 => some 'è'
    | 144 => some 'ê'
    | 145 => some 'ë'
    | 146 => some 'í'
    | 147 => some 'ì'
    | 148 => some 'î'
    | 149 => some 'ï'
    | 150 => some 'ñ'
    | 151 => some 'ó'
    | 152 => some 'ò'
    | 153 => some 'ô'
    | 154 => some 'ö'
    | 155 => some 'õ'
    | 156 => some 'ú'
    | 157 => some 'ù'
    | 158 => some 'û'
    | 159 => some 'ü'
    | 160 => some '†'
    | 161 => some '°'
    | 162 => some '¢'
    | 163 => some '£'
    | 164 => some '§'
    | 165 => some '•'
    | 166 => some '¶'
    | 167 => some 'ß'
    | 168 => some '®'
    | 169 => some '©'
    | 170 => some '™'
    | 171 => some '´'
    | 172 => some '¨'
    | 174 => some 'Æ'
    | 175 => some 'Ø'
    | 177 => some '±'
    | 180 => some '¥'
    | 181 => some 'µ'
    | 187 => some 'ª'
    | 188 => some 'º'
    | 190 => some 'æ'
    | 191 => some 'ø'
    | 192 => some '¿'
    | 193 => some '¡'
    | 194 => some '¬'
    | 196 => some 'ƒ'
    | 199 => some '«'
    | 200 => some '»'
    | 201 => some '…'
    | 202 => some ' '
    | 203 => some 'À'
    | 204 => some 'Ã'
    | 205 => some 'Õ'
    | 206 => some 'Œ'
    | 207 => some 'œ'
    | 208 => some '–'
    | 209 => some '—'
    | 210 => some '“'
    | 211 => some '”'
    | 212 => some '‘'
    | 213 => some '’'
    | 214 => some '÷'
    | 216 => some 'ÿ'
    | 217 => some 'Ÿ'
    | 218 => some '⁄'
    | 219 => some '¤'
    | 220 => some '‹'
    | 221 => some '›'
    | 222 => some 'ﬁ'
    | 223 => some 'ﬂ'
    | 224 => some '‡'
    | 225 => some '·'
    | 226 => some '‚'
    | 227 => some '„'
    | 228 => some '‰'
    | 229 => some 'Â'
    | 230 => some 'Ê'
    | 231 => some 'Á'
    | 232 => some 'Ë'
    | 233 => some 'È'
    | 234 => some 'Í'
    | 235 => some 'Î'
    | 236 => some 'Ï'
    | 237 => some 'Ì'
    | 238 => some 'Ó'
    | 239 => some 'Ô'
    | 241 => some 'Ò'
    | 242 => some 'Ú'
    | 243 => some 'Û'
    | 244 => some 'Ù'
    | 245 => some 'ı'
    | 246 => some '^'
    | 247 => some '˜'
    | 248 => some '¯'
    | 249 => some '˘'
    | 250 => some '˙'
    | 251 => some '˚'
    | 252 => some '¸'
    | 253 => some '˝'
    | 254 => some '˛'
    | 255 => some 'ˇ'
    | _ => none

/-- String::from_macroman (src/macroman.rs): unmapped bytes become U+FFFD. -/
def fromMacRoman (data : List Nat) : String :=
  String.mk (data.map (fun c => (macRomanToChar c).getD (Char.ofNat 0xFFFD)))

/-- MacBinary::filename (src/lib.rs).  When the script byte has its high bit
set and a nonzero low 7 bits the source executes `todo!("Handle non-macroman
script")`, i.e. it panics; the panic is modelled as `none`.  Every other
script byte decodes the filename bytes as Mac OS Roman. -/
def MacBinary.filename (mb : MacBinary) : Option String :=
  if mb.header.script &&& 128 = 128 ∧ mb.header.script &&& 127 ≠ 0 then
    none
  else
    some (fromMacRoman mb.header.filename)

/-- A resource type-list entry (src/resource.rs `TypeListItem`). -/
structure TypeListItem where
  rsrc_type : FourCC
  num_rsrc : Nat
  reference_list_offset : Nat
deriving DecidableEq

/-- TypeListItem's `ReadFrom` conversion (src/resource.rs `impl ReadFrom for
TypeListItem`): the stored count is corrected with `wrapping_add(1)`. -/
def TypeListItem.ofRaw (rsrc_type : FourCC) (num_rsrc reference_list_offset : Nat) :
    TypeListItem :=
  { rsrc_type
    num_rsrc := (num_rsrc + 1) % 65536
    reference_list_offset }

/-- The resource type list (src/resource.rs `TypeList`): its own scope plus
the lazy array of 8-byte `TypeListItem` records. -/
structure TypeList where
  scope : ReadScope
  list : ReadArray
deriving DecidableEq

/-- TypeList::read (src/resource.rs `impl ReadBinary for TypeList`): the
16-bit count is stored minus one and corrected with `checked_add(1)`, which
for a `u16` fails exactly on a stored 0xFFFF. -/
def TypeList.read (ctxt : ReadCtxt) : Except ParseError (TypeList × ReadCtxt) := do
  let scope := ctxt.curScope
  let (stored, c) ← ctxt.read_u16be
  let num_types ←
    (if stored = 65535 then Except.error ParseError.overflow
     else Except.ok (stored + 1))
  let (list, c) ← c.read_array 8 num_types
  .ok ({ scope, list }, c)

/-- A reference-list entry (src/resource.rs `ReferenceListItem`): a negative
stored name offset means "no name". -/
structure ReferenceListItem where
  id : Int
  name_offset : Option Nat
  attributes : Nat
  data_offset : Nat
deriving DecidableEq

/-- ReferenceListItem's `ReadFrom` conversion (src/resource.rs). -/
def ReferenceListItem.ofRaw (id name_offset : Int) (attributes data_offset : Nat)
    (_reserved : Nat) : ReferenceListItem :=
  { id
    name_offset := if 0 ≤ name_offset then some name_offset.toNat else none
    attributes
    data_offset }

/-- The reference list for one type (src/resource.rs `ReferenceList`): a lazy
array of 12-byte `ReferenceListItem` records. -/
structure ReferenceList where
  list : ReadArray
deriving DecidableEq

/-- ReferenceList::read_dep (src/resource.rs). -/
def ReferenceList.read_dep (ctxt : ReadCtxt) (num_rsrc : Nat) :
    Except ParseError (ReferenceList × ReadCtxt) :=
  (ctxt.read_array 12 num_rsrc).map (fun p => ({ list := p.1 }, p.2))

/-- The resource map (src/resource.rs `ResourceMap`). -/
structure ResourceMap where
  attributes : Nat
  type_list : TypeList
  name_list_scope : ReadScope
deriving DecidableEq

/-- ResourceMap::read (src/resource.rs): skip 22 reserved bytes, read the
attributes and the two offsets, then locate the type list and name list
relative to the map's own start. -/
def ResourceMap.read (ctxt : ReadCtxt) : Except ParseError (ResourceMap × ReadCtxt) := do
  let scope := ctxt.curScope
  let (_, c) ← ctxt.read_slice 22
  let (attributes, c) ← c.read_u16be
  let (rsrc_type_list_offset, c) ← c.read_u16be
  let (rsrc_name_list_offset, c) ← c.read_u16be
  let (type_list, _) ← TypeList.read (scope.offset rsrc_type_list_offset).ctxt
  let name_list_scope := scope.offset rsrc_name_list_offset
  .ok ({ attributes, type_list, name_list_scope }, c)

/-- A parsed resource fork (src/resource.rs `ResourceFork`). -/
structure ResourceFork where
  rsrc_data : List Nat
  map : ResourceMap
deriving DecidableEq

/-- ResourceFork::new (src/resource.rs): read the four 32-bit header fields
and carve the data and map regions with `offset_length`. -/
def ResourceFork.new (data : List Nat) : Except ParseError ResourceFork := do
  let scope := ReadScope.new data
  let c := scope.ctxt
  let (data_offset, c) ← c.read_u32be
  let (map_offset, c) ← c.read_u32be
  let (data_len, c) ← c.read_u32be
  let (map_len, _) ← c.read_u32be
  let rsrc_data ← scope.offset_length data_offset data_len
  let map_data ← scope.offset_length map_offset map_len
  let (map, _) ← ResourceMap.read map_data.ctxt
  .ok { rsrc_data := rsrc_data.data, map }

/-- An individual resource (src/resource.rs `Resource`). -/
structure Resource where
  id : Int
  name : Option (List Nat)
  attributes : Nat
  data : List Nat
deriving DecidableEq

/-- An in-bounds-checked model of the `unsafe` sequential byte reads that
`ReadArrayIter` performs with `read_unchecked`: `none` models the undefined
behaviour of reading out of bounds, which the source rules out with the
array-construction invariant `length * SIZE ≤ scope len`. -/
def uncheckedAt (data : List Nat) (off n : Nat) : Option Nat :=
  if off + n ≤ data.length then
    some (match n with
      | 1 => u8At data off
      | 2 => u16At data off
      | 3 => u24At data off
      | _ => u32At data off)
  else none

/-- Decode the `TypeListItem` at index `i` of a type-list array, as the
array iterator would (a `(FourCC, U16Be, U16Be)` read mapped through
`TypeListItem::from`); `none` models an out-of-bounds unchecked read. -/
def typeListItemAt (arr : ReadArray) (i : Nat) : Option TypeListItem := do
  let t ← uncheckedAt arr.scope.data (8 * i) 4
  let n ← uncheckedAt arr.scope.data (8 * i + 4) 2
  let r ← uncheckedAt arr.scope.data (8 * i + 6) 2
  pure (TypeListItem.ofRaw ⟨t⟩ n r)

/-- Decode the `ReferenceListItem` at index `i` of a reference-list array
(an `((I16Be, I16Be, U8), U24Be, U32Be)` read mapped through
`ReferenceListItem::from`); `none` models an out-of-bounds unchecked read. -/
def referenceListItemAt (arr : ReadArray) (i : Nat) : Option ReferenceListItem := do
  let id ← uncheckedAt arr.scope.data (12 * i) 2
  let nameOff ← uncheckedAt arr.scope.data (12 * i + 2) 2
  let attrs ← uncheckedAt arr.scope.data (12 * i + 4) 1
  let dataOff ← uncheckedAt arr.scope.data (12 * i + 5) 3
  let reserved ← uncheckedAt arr.scope.data (12 * i + 8) 4
  pure (ReferenceListItem.ofRaw (toI16 id) (toI16 nameOff) attrs dataOff reserved)

/-- The `iter().find(..)` loop of `TypeList::find`, walking indices `i`,
`i+1`, ... while `fuel` items remain; the outer `none` models a panic
(an out-of-bounds unchecked read), `some none` means "not found". -/
def findTypeAux (arr : ReadArray) (t : FourCC) : Nat → Nat → Option (Option TypeListItem)
  | _, 0 => some none
  | i, fuel + 1 =>
    match typeListItemAt arr i with
    | none => none
    | some item =>
      if item.rsrc_type = t then some (some item) else findTypeAux arr t (i + 1) fuel

/-- The `iter().find(..)` loop of `ReferenceList::find`. -/
def findRefAux (arr : ReadArray) (id : Int) : Nat → Nat → Option (Option ReferenceListItem)
  | _, 0 => some none
  | i, fuel + 1 =>
    match referenceListItemAt arr i with
    | none => none
    | some item =>
      if item.id = id then some (some item) else findRefAux arr id (i + 1) fuel

/-- TypeListItem::reference_list (src/resource.rs): re-enter the type-list
scope at the stored offset; any parse failure degrades to `none` (`.ok()`). -/
def TypeListItem.reference_list (item : TypeListItem) (scope : ReadScope) :
    Option ReferenceList :=
  (ReferenceList.read_dep (scope.offset item.reference_list_offset).ctxt
    item.num_rsrc).toOption.map (·.1)

/-- TypeList::find with the panic layer: the outer `none` models a panic in
the iterator, `some none` a type that is not present. -/
def TypeList.find (tl : TypeList) (rsrc_type : FourCC) : Option (Option ReferenceList) :=
  match findTypeAux tl.list rsrc_type 0 tl.list.length with
  | none => none
  | some none => some none
  | some (some item) => some (item.reference_list tl.scope)

/-- ReferenceList::find with the panic layer. -/
def ReferenceList.find (rl : ReferenceList) (id : Int) :
    Option (Option ReferenceListItem) :=
  findRefAux rl.list id 0 rl.list.length

/-- ResourceFork::read_resource_data (src/resource.rs): length-prefixed data
at the stored offset inside the resource-data region; failures are `None`. -/
def ResourceFork.read_resource_data (fork : ResourceFork) (offset : Nat) :
    Option (List Nat) := do
  let c := ((ReadScope.new fork.rsrc_data).offset offset).ctxt
  let (len, c) ← (c.read_u32be).toOption
  let (s, _) ← (c.read_slice len).toOption
  pure s

/-- ResourceFork::read_name (src/resource.rs): length-prefixed name at the
stored offset inside the name-list scope; failures are `None`. -/
def ResourceFork.read_name (fork : ResourceFork) (offset : Nat) : Option (List Nat) := do
  let c := (fork.map.name_list_scope.offset offset).ctxt
  let (len, c) ← (c.read_u8).toOption
  let (s, _) ← (c.read_slice len).toOption
  pure s

/-- ResourceFork::read_resource (src/resource.rs). -/
def ResourceFork.read_resource (fork : ResourceFork) (item : ReferenceListItem) :
    Option Resource := do
  let data ← fork.read_resource_data item.data_offset
  let name := item.name_offset.bind fork.read_name
  pure { id := item.id, name, attributes := item.attributes, data }

/-- ResourceFork::get_resource (src/resource.rs) with the panic layer made
explicit: the outer `none` models a panic (out-of-bounds unchecked read
inside an iterator), `some r` is the value the Rust function returns. -/
def ResourceFork.get_resource (fork : ResourceFork) (rsrc_type : FourCC) (rsrc_id : Int) :
    Option (Option Resource) :=
  match fork.map.type_list.find rsrc_type with
  | none => none
  | some none => some none
  | some (some reference_list) =>
    match reference_list.find rsrc_id with
    | none => none
    | some none => some none
    | some (some item) => some (fork.read_resource item)

/-- A concrete 54-byte resource fork: empty data region at offset 16, a
38-byte map at offset 16 whose type list (at map offset 28) holds one type
`ABCD` with one resource. -/
def bufFork : List Nat :=
  [0, 0, 0, 16, 0, 0, 0, 16, 0, 0, 0, 0, 0, 0, 0, 38,
   0, 0, 0, 0, 0, 0, 0, 0, 0, 0, 0, 0, 0, 0, 0, 0,
   0, 0, 0, 0, 0, 0, 0, 0, 0, 28, 0, 0, 0, 0,
   65, 66, 67, 68, 0, 0, 0, 0]


/-- The decoded form of `bufFork`. -/
def bufForkParsed : ResourceFork where
  rsrc_data := []
  map :=
    { attributes := 0
      type_list :=
        { scope := ⟨44, [0, 0, 65, 66, 67, 68, 0, 0, 0, 0]⟩
          list := { scope := ⟨46, [65, 66, 67, 68, 0, 0, 0, 0]⟩, length := 1 } }
      name_list_scope :=
        ⟨16, [0, 0, 0, 0, 0, 0, 0, 0, 0, 0, 0, 0, 0, 0, 0, 0, 0, 0, 0, 0, 0, 0,
              0, 0, 0, 28, 0, 0, 0, 0, 65, 66, 67, 68, 0, 0, 0, 0]⟩ }

/-! ## Theorems -/

/-- `offset_length` succeeds whenever `offset + length` fits. -/
theorem offset_length_ok (s : ReadScope) (off len : Nat)
    (h : off + len ≤ s.data.length) :
    s.offset_length off len = .ok ⟨s.base + off, (s.data.drop off).take len⟩ := by
  unfold ReadScope.offset_length
  rw [if_pos (by omega), if_pos (by simp [List.length_drop]; omega)]

/-- `read_u8` succeeds whenever one byte is available. -/
theorem read_u8_ok (c : ReadCtxt) (h : c.offset + 1 ≤ c.scope.data.length) :
    c.read_u8 = .ok (u8At c.scope.data c.offset, ⟨c.scope, c.offset + 1⟩) := by
  simp [ReadCtxt.read_u8, h]

/-- `read_u16be` succeeds whenever two bytes are available. -/
theorem read_u16be_ok (c : ReadCtxt) (h : c.offset + 2 ≤ c.scope.data.length) :
    c.read_u16be = .ok (u16At c.scope.data c.offset, ⟨c.scope, c.offset + 2⟩) := by
  simp [ReadCtxt.read_u16be, h]

/-- `read_u24be` succeeds whenever three bytes are available. -/
theorem read_u24be_ok (c : ReadCtxt) (h : c.offset + 3 ≤ c.scope.data.length) :
    c.read_u24be = .ok (u24At c.scope.data c.offset, ⟨c.scope, c.offset + 3⟩) := by
  simp [ReadCtxt.read_u24be, h]

/-- `read_u32be` succeeds whenever four bytes are available. -/
theorem read_u32be_ok (c : ReadCtxt) (h : c.offset + 4 ≤ c.scope.data.length) :
    c.read_u32be = .ok (u32At c.scope.data c.offset, ⟨c.scope, c.offset + 4⟩) := by
  simp [ReadCtxt.read_u32be, h]

/-- `read_scope` succeeds whenever the requested bytes are available. -/
theorem read_scope_ok (c : ReadCtxt) (n : Nat)
    (h : c.offset + n ≤ c.scope.data.length) :
    c.read_scope n =
      .ok (⟨c.scope.base + c.offset, (c.scope.data.drop c.offset).take n⟩,
        ⟨c.scope, c.offset + n⟩) := by
  simp [ReadCtxt.read_scope, offset_length_ok _ _ _ h]

/-- `read_slice` succeeds whenever the requested bytes are available. -/
theorem read_slice_ok (c : ReadCtxt) (n : Nat)
    (h : c.offset + n ≤ c.scope.data.length) :
    c.read_slice n =
      .ok ((c.scope.data.drop c.offset).take n, ⟨c.scope, c.offset + n⟩) := by
  simp [ReadCtxt.read_slice, Except.map, read_scope_ok _ _ h]

/-- `read_u8` on an explicit cursor. -/
theorem read_u8_mk (b : Nat) (d : List Nat) (o : Nat) (h : o + 1 ≤ d.length) :
    ReadCtxt.read_u8 ⟨⟨b, d⟩, o⟩ = .ok (u8At d o, ⟨⟨b, d⟩, o + 1⟩) := by
  simp [ReadCtxt.read_u8, h]

/-- `read_u16be` on an explicit cursor. -/
theorem read_u16be_mk (b : Nat) (d : List Nat) (o : Nat) (h : o + 2 ≤ d.length) :
    ReadCtxt.read_u16be ⟨⟨b, d⟩, o⟩ = .ok (u16At d o, ⟨⟨b, d⟩, o + 2⟩) := by
  simp [ReadCtxt.read_u16be, h]

/-- `read_u32be` on an explicit cursor. -/
theorem read_u32be_mk (b : Nat) (d : List Nat) (o : Nat) (h : o + 4 ≤ d.length) :
    ReadCtxt.read_u32be ⟨⟨b, d⟩, o⟩ = .ok (u32At d o, ⟨⟨b, d⟩, o + 4⟩) := by
  simp [ReadCtxt.read_u32be, h]

/-- `read_slice` on an explicit cursor. -/
theorem read_slice_mk (b : Nat) (d : List Nat) (o n : Nat) (h : o + n ≤ d.length) :
    ReadCtxt.read_slice ⟨⟨b, d⟩, o⟩ n = .ok ((d.drop o).take n, ⟨⟨b, d⟩, o + n⟩) := by
  simp [ReadCtxt.read_slice, ReadCtxt.read_scope, Except.map,
    offset_length_ok ⟨b, d⟩ o n h]

/-- Characterization of `Header::read` over a whole buffer of at least 128
bytes: it fails with `BadValue` exactly when the filename-length byte is
outside `1..=31`, and otherwise returns `mkHeader` with the cursor at 128. -/
theorem header_read_eq (data : List Nat) (h : 128 ≤ data.length) :
    Header.read ⟨⟨0, data⟩, 0⟩ =
      if 1 ≤ u8At data 1 ∧ u8At data 1 ≤ 31 then
        .ok (mkHeader data, ⟨⟨0, data⟩, 128⟩)
      else .error .badValue := by
  by_cases hf : 1 ≤ u8At data 1 ∧ u8At data 1 ≤ 31
  · rw [if_pos hf]
    simp (disch := omega) only [Header.read, ReadScope.new, ReadScope.ctxt,
      read_u8_mk, read_u16be_mk, read_u32be_mk, read_slice_mk,
      ReadCtxt.check, bind, Except.bind, Except.map, Nat.reduceAdd]
    rw [if_pos (by simpa using hf)]
    simp [mkHeader]
  · rw [if_neg hf]
    simp (disch := omega) only [Header.read, ReadScope.new, ReadScope.ctxt,
      read_u8_mk, read_u16be_mk, read_u32be_mk, read_slice_mk,
      ReadCtxt.check, bind, Except.bind, Except.map, Nat.reduceAdd]
    simp [hf]

/-- A detected buffer has at least 128 bytes. -/
theorem detect_length {data : List Nat} {v : Version} (h : detect data = some v) :
    128 ≤ data.length := by
  by_cases hc : 128 ≤ data.length ∧ data.getD 0 0 = 0
  · exact hc.1
  · rw [detect, if_neg hc] at h
    cases h

/-- C3: any buffer of at least 128 bytes whose first byte is zero and whose
bytes 102..106 decode as the FourCC `mBIN` is detected as version III,
whatever bytes 74 and 82, the stored CRC and every other byte hold; the
signature branch is taken before the zero-byte, CRC and version-I checks, so
such a buffer is never classified as version I, II or no version. -/
theorem detect_mbin_signature (data : List Nat) (h128 : 128 ≤ data.length)
    (h0 : data.getD 0 0 = 0) (hsig : u32At data 102 = MBIN_SIG) :
    detect data = some Version.III := by
  rw [detect, if_pos ⟨h128, h0⟩, if_pos hsig]

/-- `next_u16_multiple_of_128` only ever fails with `Overflow`. -/
theorem next_u16_err {x : Nat} {e : ParseError}
    (h : next_u16_multiple_of_128 x = .error e) : e = .overflow := by
  rw [next_u16_multiple_of_128] at h
  split at h
  · cases h
  · split at h
    · cases h
    · cases h; rfl

/-- `next_u32_multiple_of_128` only ever fails with `Overflow`. -/
theorem next_u32_err {x : Nat} {e : ParseError}
    (h : next_u32_multiple_of_128 x = .error e) : e = .overflow := by
  rw [next_u32_multiple_of_128] at h
  split at h
  · cases h
  · split at h
    · cases h
    · cases h; rfl

/-- `read_slice` only ever fails with `BadEof`. -/
theorem read_slice_err {c : ReadCtxt} {n : Nat} {e : ParseError}
    (h : c.read_slice n = .error e) : e = .badEof := by
  rw [ReadCtxt.read_slice, ReadCtxt.read_scope] at h
  rcases ho : c.scope.offset_length c.offset n with e' | s <;> rw [ho] at h
  · cases h; rfl
  · cases h

/-- No step after the CRC check can produce `CrcMismatch`. -/
theorem read_forks_no_crc (c : ReadCtxt) (v : Version) (hd : Header) :
    MacBinary.read_forks c v hd ≠ .error .crcMismatch := by
  intro hcon
  rw [MacBinary.read_forks] at hcon
  rcases h1 : next_u16_multiple_of_128 hd.secondary_header_len with e1 | v1 <;>
    rw [h1] at hcon <;> simp only [bind, Except.bind] at hcon
  · cases hcon; exact absurd (next_u16_err h1) (by decide)
  rcases h2 : c.read_slice v1 with e2 | ⟨l2, c2⟩ <;>
    rw [h2] at hcon <;> simp only [] at hcon
  · cases hcon; exact absurd (read_slice_err h2) (by decide)
  rcases h3 : c2.read_slice hd.data_fork_len with e3 | ⟨l3, c3⟩ <;>
    rw [h3] at hcon <;> simp only [] at hcon
  · cases hcon; exact absurd (read_slice_err h3) (by decide)
  rcases h4 : next_u32_multiple_of_128 hd.data_fork_len with e4 | v4 <;>
    rw [h4] at hcon <;> simp only [] at hcon
  · cases hcon; exact absurd (next_u32_err h4) (by decide)
  rcases h5 : c3.read_slice (v4 - hd.data_fork_len) with e5 | ⟨l5, c5⟩ <;>
    rw [h5] at hcon <;> simp only [] at hcon
  · cases hcon; exact absurd (read_slice_err h5) (by decide)
  rcases h6 : c5.read_slice hd.rsrc_fork_len with e6 | ⟨l6, c6⟩ <;>
    rw [h6] at hcon <;> simp only [] at hcon
  · cases hcon; exact absurd (read_slice_err h6) (by decide)
  cases hcon

/-- Characterization of `parse` for a detected buffer: `BadValue` for a bad
filename length, `CrcMismatch` exactly when the version is at least II and
the recomputed CRC over the first 124 bytes differs from the stored header
CRC, and otherwise the fork-reading tail. -/
theorem parse_eq {data : List Nat} {v : Version} (hdet : detect data = some v) :
    parse data =
      if 1 ≤ u8At data 1 ∧ u8At data 1 ≤ 31 then
        if 2 ≤ v.num ∧ calc_crc (data.take 124) ≠ u16At data 124 then
          .error .crcMismatch
        else
          (MacBinary.read_forks ⟨⟨0, data⟩, 128⟩ v (mkHeader data)).map (·.1)
      else .error .badValue := by
  have h128 := detect_length hdet
  rw [parse, hdet]
  simp only [MacBinary.read_dep, ReadScope.new, ReadScope.ctxt, ReadCtxt.curScope,
    ReadScope.offset, List.drop_zero, bind, Except.bind]
  rw [if_pos (by omega : 124 ≤ data.length)]
  rw [header_read_eq data h128]
  by_cases hf : 1 ≤ u8At data 1 ∧ u8At data 1 ≤ 31
  · rw [if_pos hf, if_pos hf]
    dsimp only
    by_cases hcrc : 2 ≤ v.num ∧ calc_crc (data.take 124) ≠ u16At data 124
    · rw [if_pos hcrc]
      have hc : (2 ≤ v.num ∧ ¬calc_crc (data.take 124) = (mkHeader data).crc) := by
        simpa [mkHeader] using hcrc
      rw [if_pos hc]
      rfl
    · rw [if_neg hcrc]
      have hc : ¬(2 ≤ v.num ∧ ¬calc_crc (data.take 124) = (mkHeader data).crc) := by
        simpa [mkHeader] using hcrc
      rw [if_neg hc]
  · rw [if_neg hf, if_neg hf]
    rfl

example : calc_crc [49, 50, 51, 52, 53, 54, 55, 56, 57] = 0x31C3 := by decide

/-- The stored CRC of `bufIII` equals the CRC-16/XMODEM of its first
124 bytes, so `parse` accepts it. -/
theorem crc_bufIII : calc_crc (bufIII.take 124) = 24203 := by
  simp [calc_crc, crcUpdate, crcStep, bufIII]

/-- The CRC of `bufScript`'s first 124 bytes equals its stored CRC 0x49A5. -/
theorem crc_bufScript : calc_crc (bufScript.take 124) = 18853 := by
  simp [calc_crc, crcUpdate, crcStep, bufScript]

/-- Corrupting byte 2 of `bufIII` changes the computed CRC. -/
theorem crc_bufIII_corrupt : calc_crc ((bufIII.set 2 66).take 124) = 39796 := by
  simp [calc_crc, crcUpdate, crcStep, bufIII]

example : detect bufIII = some .III := by decide
example : parse (bufIII.set 0 1) = .error .badVersion := by decide


/-- C1: `offset_length(offset, 0)` always succeeds (with the empty scope based
at `base + offset`); for `len > 0`, when `offset + len` exceeds the scope
length the call fails, with `BadEof` when `offset` is in range and with
`BadOffset` when `offset` itself is out of range. -/
theorem offset_length_zero_and_oob (s : ReadScope) (off len : Nat) :
    s.offset_length off 0 = .ok ⟨s.base + off, []⟩ ∧
    (0 < len → s.data.length < off + len →
      s.offset_length off len =
        .error (if off < s.data.length then .badEof else .badOffset)) := by
  constructor
  · simp [ReadScope.offset_length]
  · intro hlen hover
    unfold ReadScope.offset_length
    by_cases hoff : off < s.data.length
    · rw [if_pos (Or.inl hoff), if_pos hoff]
      have hdrop : (s.data.drop off).length = s.data.length - off := by
        simp [List.length_drop]
      rw [if_neg (by omega)]
    · rw [if_neg (by omega), if_neg hoff]

/-- Witness for C1 at concrete inputs: a 3-byte scope accepts
`offset_length(5, 0)` and rejects `offset_length(2, 5)` with `BadEof`. -/
theorem offset_length_zero_and_oob_witness :
    ReadScope.offset_length ⟨0, [1, 2, 3]⟩ 5 0 = .ok ⟨5, []⟩ ∧
    ReadScope.offset_length ⟨0, [1, 2, 3]⟩ 2 5 = .error .badEof := by
  refine ⟨(offset_length_zero_and_oob ⟨0, [1, 2, 3]⟩ 5 0).1, ?_⟩
  have h := (offset_length_zero_and_oob ⟨0, [1, 2, 3]⟩ 2 5).2 (by decide) (by decide)
  simpa using h

/-- C1 counterexample: with a 3-byte scope, `offset_length(5, 1)` has
`5 + 1` exceeding the scope length yet fails with `BadOffset`, not `BadEof`
as the claim states. -/
theorem offset_length_badoffset_counterexample :
    ReadScope.offset_length ⟨0, [1, 2, 3]⟩ 5 1 = .error .badOffset ∧
    ReadScope.offset_length ⟨0, [1, 2, 3]⟩ 5 1 ≠ .error .badEof := by
  constructor
  · rfl
  · decide

/-- C7 counterexample: 65408 is the largest `u16` multiple of 128; it lies
within 128 of `u16::MAX = 65535` but `next_u16_multiple_of_128` returns it
unchanged instead of failing with `Overflow`. -/
theorem next_multiple_no_overflow_at_65408 :
    next_u16_multiple_of_128 65408 = .ok 65408 ∧ 65535 - 65408 < 128 := by
  constructor
  · rfl
  · decide

/-- C7 (amended): the round-up helpers satisfy the listed concrete values;
a non-multiple of 128 within 128 of the integer maximum fails with
`Overflow`, while a multiple of 128 (including the largest representable
one) is returned unchanged. -/
theorem next_multiple_of_128_values :
    next_u16_multiple_of_128 0 = .ok 0 ∧
    next_u16_multiple_of_128 3 = .ok 128 ∧
    next_u16_multiple_of_128 128 = .ok 128 ∧
    next_u16_multiple_of_128 129 = .ok 256 ∧
    next_u32_multiple_of_128 0 = .ok 0 ∧
    next_u32_multiple_of_128 3 = .ok 128 ∧
    next_u32_multiple_of_128 128 = .ok 128 ∧
    next_u32_multiple_of_128 129 = .ok 256 ∧
    (∀ v, 65408 < v → v ≤ 65535 →
      next_u16_multiple_of_128 v = .error .overflow) ∧
    (∀ v, v ≤ 65535 → v % 128 = 0 → next_u16_multiple_of_128 v = .ok v) ∧
    (∀ v, 4294967168 < v → v ≤ 4294967295 →
      next_u32_multiple_of_128 v = .error .overflow) ∧
    (∀ v, v ≤ 4294967295 → v % 128 = 0 → next_u32_multiple_of_128 v = .ok v) := by
  refine ⟨rfl, rfl, rfl, rfl, rfl, rfl, rfl, rfl, ?_, ?_, ?_, ?_⟩
  · intro v h1 h2
    unfold next_u16_multiple_of_128
    rw [if_neg (by omega), if_neg (by omega)]
  · intro v _ h
    unfold next_u16_multiple_of_128
    rw [if_pos h]
  · intro v h1 h2
    unfold next_u32_multiple_of_128
    rw [if_neg (by omega), if_neg (by omega)]
  · intro v _ h
    unfold next_u32_multiple_of_128
    rw [if_pos h]

/-- Witness for C7 at concrete inputs: 65532 (within 128 of `u16::MAX`, not a
multiple) overflows, and 65408 (a multiple) is returned unchanged; likewise
for `u32`. -/
theorem next_multiple_of_128_values_witness :
    next_u16_multiple_of_128 65532 = .error .overflow ∧
    next_u16_multiple_of_128 65408 = .ok 65408 ∧
    next_u32_multiple_of_128 4294967292 = .error .overflow ∧
    next_u32_multiple_of_128 4294967168 = .ok 4294967168 := by
  have h := next_multiple_of_128_values
  exact ⟨h.2.2.2.2.2.2.2.2.1 65532 (by decide) (by decide),
    h.2.2.2.2.2.2.2.2.2.1 65408 (by decide) (by decide),
    h.2.2.2.2.2.2.2.2.2.2.1 4294967292 (by decide) (by decide),
    h.2.2.2.2.2.2.2.2.2.2.2 4294967168 (by decide) (by decide)⟩


theorem getD_set_ne (l : List Nat) (i j : Nat) (x d : Nat) (h : i ≠ j) :
    (l.set i x).getD j d = l.getD j d := by
  simp [List.getD_eq_getElem?_getD, List.getElem?_set_ne h]

theorem getD_take (l : List Nat) (n j : Nat) (d : Nat) (h : j < n) :
    (l.take n).getD j d = l.getD j d := by
  simp [List.getD_eq_getElem?_getD, List.getElem?_take_of_lt h]

theorem getD_append_lt (l e : List Nat) (j : Nat) (d : Nat) (h : j < l.length) :
    (l ++ e).getD j d = l.getD j d := by
  simp [List.getD_eq_getElem?_getD, List.getElem?_append_left h]

theorem take_append_le (l e : List Nat) (n : Nat) (h : n ≤ l.length) :
    (l ++ e).take n = l.take n := by
  conv_lhs => rw [← List.take_append_drop n l, List.append_assoc]
  rw [List.take_left' (by simp [List.length_take]; omega)]

theorem drop_append_le (l e : List Nat) (n : Nat) (h : n ≤ l.length) :
    (l ++ e).drop n = l.drop n ++ e := by
  conv_lhs => rw [← List.take_append_drop n l, List.append_assoc]
  rw [List.drop_left' (by simp [List.length_take]; omega)]

theorem take_set_ge (l : List Nat) (i x n : Nat) (h : n ≤ i) :
    (l.set i x).take n = l.take n := by
  rw [List.set_take, List.set_eq_of_length_le (by simp [List.length_take]; omega)]

/-- Two buffers that agree (lengths and bytes) on a window agree on the
corresponding `drop`-`take` slice. -/
theorem drop_take_congr (d d' : List Nat) (a n : Nat)
    (h : ∀ j, a ≤ j → j < a + n → d.getD j 0 = d'.getD j 0)
    (hlen : d.length = d'.length) :
    (d.drop a).take n = (d'.drop a).take n := by
  apply List.ext_getElem?
  intro i
  by_cases hi : i < n
  · rw [List.getElem?_take_of_lt hi, List.getElem?_take_of_lt hi,
      List.getElem?_drop, List.getElem?_drop]
    by_cases hb : a + i < d.length
    · have hb' : a + i < d'.length := by omega
      have hd := h (a + i) (by omega) (by omega)
      rw [List.getD_eq_getElem _ _ hb, List.getD_eq_getElem _ _ hb'] at hd
      rw [List.getElem?_eq_getElem hb, List.getElem?_eq_getElem hb', hd]
    · rw [List.getElem?_eq_none (by omega), List.getElem?_eq_none (by omega)]
  · rw [List.getElem?_eq_none (by simp [List.length_take, List.length_drop]; omega),
      List.getElem?_eq_none (by simp [List.length_take, List.length_drop]; omega)]

theorem take_congr (d d' : List Nat) (n : Nat)
    (h : ∀ j, j < n → d.getD j 0 = d'.getD j 0) (hlen : d.length = d'.length) :
    d.take n = d'.take n := by
  have := drop_take_congr d d' 0 n (fun j _ hj2 => h j (by omega)) hlen
  simpa using this

theorem u16At_congr {d d' : List Nat} (off : Nat)
    (h0 : d.getD off 0 = d'.getD off 0) (h1 : d.getD (off+1) 0 = d'.getD (off+1) 0) :
    u16At d off = u16At d' off := by
  unfold u16At u8At
  rw [h0, h1]

theorem u32At_congr {d d' : List Nat} (off : Nat)
    (h0 : d.getD off 0 = d'.getD off 0) (h1 : d.getD (off+1) 0 = d'.getD (off+1) 0)
    (h2 : d.getD (off+2) 0 = d'.getD (off+2) 0)
    (h3 : d.getD (off+3) 0 = d'.getD (off+3) 0) :
    u32At d off = u32At d' off := by
  unfold u32At u8At
  rw [h0, h1, h2, h3]

/-- `detect` only inspects the length and the first 126 bytes. -/
theorem detect_congr {d d' : List Nat} (hlen : d.length = d'.length)
    (hj : ∀ j, j < 126 → d.getD j 0 = d'.getD j 0) :
    detect d = detect d' := by
  have htake : d.take 124 = d'.take 124 :=
    take_congr d d' 124 (fun j hjlt => hj j (by omega)) hlen
  have hslice : (d.drop 101).take 25 = (d'.drop 101).take 25 :=
    drop_take_congr d d' 101 25 (fun j hj1 hj2 => hj j (by omega)) hlen
  rw [detect, detect, hlen, htake, hslice,
    hj 0 (by omega), hj 2 (by omega), hj 74 (by omega), hj 82 (by omega),
    u16At_congr 124 (hj 124 (by omega)) (hj 125 (by omega)),
    u32At_congr 102 (hj 102 (by omega)) (hj 103 (by omega)) (hj 104 (by omega))
      (hj 105 (by omega)),
    u32At_congr 83 (hj 83 (by omega)) (hj 84 (by omega)) (hj 85 (by omega))
      (hj 86 (by omega)),
    u32At_congr 87 (hj 87 (by omega)) (hj 88 (by omega)) (hj 89 (by omega))
      (hj 90 (by omega))]


/-- Convenience form of `Nat.xor_lt_two_pow` for the 16-bit bound. -/
theorem xor_lt_65536 {a b : Nat} (ha : a < 65536) (hb : b < 65536) :
    a ^^^ b < 65536 := by
  have h2 : (65536 : Nat) = 2 ^ 16 := by norm_num
  have := Nat.xor_lt_two_pow (n := 16) (h2 ▸ ha) (h2 ▸ hb)
  omega

/-- `crcStep` keeps the register in the 16-bit range. -/
theorem crcStep_lt {c : Nat} (h : c < 65536) : crcStep c < 65536 := by
  rw [crcStep]
  split
  · omega
  · exact xor_lt_65536 (Nat.mod_lt _ (by omega)) (by omega)

/-- `crcStep` is injective on the 16-bit range. -/
theorem crcStep_inj {a b : Nat} (ha : a < 65536) (hb : b < 65536)
    (h : crcStep a = crcStep b) : a = b := by
  rw [crcStep, crcStep] at h
  split at h <;> split at h
  · omega
  · -- a low, b high: left even, right odd
    exfalso
    have hea : (2 * a) % 2 = 0 := by omega
    have heb : ((2 * b) % 65536) % 2 = 0 := by omega
    have : (((2 * b) % 65536) ^^^ 4129) % 2 = 1 := by
      rw [Nat.xor_mod_two_eq_one]
      omega
    omega
  · exfalso
    have : (((2 * a) % 65536) ^^^ 4129) % 2 = 1 := by
      rw [Nat.xor_mod_two_eq_one]
      omega
    omega
  · have := congrArg (fun z => z ^^^ 4129) h
    simp only [Nat.xor_cancel_right] at this
    omega

/-- Iterating `crcStep` preserves the range. -/
theorem crcStep_iter_lt : ∀ (n : Nat) {c : Nat}, c < 65536 → crcStep^[n] c < 65536
  | 0, _, h => by simpa using h
  | n + 1, c, h => by
    rw [Function.iterate_succ_apply]
    exact crcStep_iter_lt n (crcStep_lt h)

/-- Iterating `crcStep` is injective on the range. -/
theorem crcStep_iter_inj : ∀ (n : Nat) {a b : Nat}, a < 65536 → b < 65536 →
    crcStep^[n] a = crcStep^[n] b → a = b
  | 0, _, _, _, _, h => by simpa using h
  | n + 1, a, b, ha, hb, h => by
    rw [Function.iterate_succ_apply, Function.iterate_succ_apply] at h
    exact crcStep_inj ha hb (crcStep_iter_inj n (crcStep_lt ha) (crcStep_lt hb) h)

/-- `crcUpdate` as an iterate (for the induction lemmas). -/
theorem crcUpdate_eq_iter (c b : Nat) :
    crcUpdate c b = crcStep^[8] (c ^^^ (256 * b)) := by
  rw [crcUpdate]
  simp [Function.iterate_succ_apply, Function.iterate_zero_apply]

/-- `crcUpdate` keeps the register in the 16-bit range for a byte input. -/
theorem crcUpdate_lt {c b : Nat} (hc : c < 65536) (hb : b < 256) :
    crcUpdate c b < 65536 := by
  rw [crcUpdate_eq_iter]
  apply crcStep_iter_lt
  exact xor_lt_65536 hc (by omega)

/-- `crcUpdate` is injective in the register. -/
theorem crcUpdate_inj {a b : Nat} (x : Nat) (ha : a < 65536) (hb : b < 65536)
    (hx : x < 256) (h : crcUpdate a x = crcUpdate b x) : a = b := by
  rw [crcUpdate_eq_iter, crcUpdate_eq_iter] at h
  have hxa : a ^^^ (256 * x) < 65536 := xor_lt_65536 ha (by omega)
  have hxb : b ^^^ (256 * x) < 65536 := xor_lt_65536 hb (by omega)
  have := crcStep_iter_inj 8 hxa hxb h
  have h2 := congrArg (fun z => z ^^^ (256 * x)) this
  simpa only [Nat.xor_cancel_right] using h2

/-- Feeding different bytes from the same register yields different registers. -/
theorem crcUpdate_byte_ne {c x y : Nat} (hc : c < 65536) (hx : x < 256)
    (hy : y < 256) (hne : x ≠ y) : crcUpdate c x ≠ crcUpdate c y := by
  intro h
  rw [crcUpdate_eq_iter, crcUpdate_eq_iter] at h
  have hxa : c ^^^ (256 * x) < 65536 := xor_lt_65536 hc (by omega)
  have hxb : c ^^^ (256 * y) < 65536 := xor_lt_65536 hc (by omega)
  have heq := crcStep_iter_inj 8 hxa hxb h
  have h2 := congrArg (fun z => c ^^^ z) heq
  simp only [Nat.xor_cancel_left] at h2
  omega

/-- The register stays in range along a well-formed byte list. -/
theorem crc_foldl_lt : ∀ (l : List Nat) {c : Nat}, c < 65536 →
    (∀ b ∈ l, b < 256) → l.foldl crcUpdate c < 65536
  | [], _, hc, _ => hc
  | b :: l, c, hc, hw => by
    rw [List.foldl_cons]
    exact crc_foldl_lt l (crcUpdate_lt hc (hw b (by simp)))
      (fun x hx => hw x (by simp [hx]))

/-- Folding the same well-formed list from different registers keeps them
different. -/
theorem crc_foldl_ne : ∀ (l : List Nat) {c c' : Nat}, c < 65536 → c' < 65536 →
    c ≠ c' → (∀ b ∈ l, b < 256) → l.foldl crcUpdate c ≠ l.foldl crcUpdate c'
  | [], _, _, _, _, hne, _ => hne
  | b :: l, c, c', hc, hc', hne, hw => by
    rw [List.foldl_cons, List.foldl_cons]
    have hb : b < 256 := hw b (by simp)
    exact crc_foldl_ne l (crcUpdate_lt hc hb) (crcUpdate_lt hc' hb)
      (fun h => hne (crcUpdate_inj b hc hc' hb h))
      (fun x hx => hw x (by simp [hx]))

/-- Changing a single byte of a well-formed buffer changes its
CRC-16/XMODEM checksum. -/
theorem calc_crc_set_ne (l : List Nat) (i x : Nat) (hw : ∀ b ∈ l, b < 256)
    (hi : i < l.length) (hx : x < 256) (hne : x ≠ l.getD i 0) :
    calc_crc (l.set i x) ≠ calc_crc l := by
  have hdecomp : l = l.take i ++ l[i] :: l.drop (i + 1) := by
    conv_lhs => rw [← List.take_append_drop i l]
    rw [List.drop_eq_getElem_cons hi]
  have hset : l.set i x = l.take i ++ x :: l.drop (i + 1) :=
    List.set_eq_take_cons_drop x hi
  rw [calc_crc, calc_crc, hset]
  conv_rhs => rw [hdecomp]
  rw [List.foldl_append, List.foldl_append, List.foldl_cons, List.foldl_cons]
  have hwt : ∀ b ∈ l.take i, b < 256 := fun b hb =>
    hw b ((List.take_sublist i l).mem hb)
  have hwd : ∀ b ∈ l.drop (i + 1), b < 256 := fun b hb =>
    hw b ((List.drop_sublist (i + 1) l).mem hb)
  have hs : List.foldl crcUpdate 0 (l.take i) < 65536 :=
    crc_foldl_lt _ (by omega) hwt
  have hgi : l[i] < 256 := hw _ (l.getElem_mem hi)
  have hgD : l.getD i 0 = l[i] := List.getD_eq_getElem _ _ hi
  apply crc_foldl_ne _ (crcUpdate_lt hs hx) (crcUpdate_lt hs hgi) _ hwd
  exact crcUpdate_byte_ne hs hx hgi (by omega)


theorem offset_length_inv {s : ReadScope} {off len : Nat} {s' : ReadScope}
    (h : s.offset_length off len = .ok s') :
    s'.data.length = len ∧ s'.data = (s.data.drop off).take len := by
  simp only [ReadScope.offset_length] at h
  split at h
  · split at h
    · rename_i hlen
      cases h
      refine ⟨?_, rfl⟩
      simp only [List.length_drop] at hlen
      simp [List.length_take, List.length_drop]
      omega
    · cases h
  · cases h

theorem read_array_inv {c : ReadCtxt} {size n : Nat} {p : ReadArray × ReadCtxt}
    (h : c.read_array size n = .ok p) :
    p.1.length = n ∧ p.1.scope.data.length = n * size := by
  rw [ReadCtxt.read_array, ReadCtxt.read_scope] at h
  rcases ho : c.scope.offset_length c.offset (n * size) with e | s' <;> rw [ho] at h
  · cases h
  · simp only [Except.map] at h
    cases h
    exact ⟨rfl, (offset_length_inv ho).1⟩

theorem read_u16be_inv {c : ReadCtxt} {p : Nat × ReadCtxt}
    (h : c.read_u16be = .ok p) : p.1 = u16At c.scope.data c.offset := by
  rw [ReadCtxt.read_u16be] at h
  split at h
  · cases h; rfl
  · cases h

theorem read_forks_shape {c : ReadCtxt} {v : Version} {hd : Header}
    {p : MacBinary × ReadCtxt} (h : MacBinary.read_forks c v hd = .ok p) :
    p.1.version = v ∧ p.1.header = hd := by
  rw [MacBinary.read_forks] at h
  rcases h1 : next_u16_multiple_of_128 hd.secondary_header_len with e1 | v1 <;>
    rw [h1] at h <;> simp only [bind, Except.bind] at h
  · cases h
  rcases h2 : c.read_slice v1 with e2 | ⟨l2, c2⟩ <;> rw [h2] at h <;> simp only [] at h
  · cases h
  rcases h3 : c2.read_slice hd.data_fork_len with e3 | ⟨l3, c3⟩ <;>
    rw [h3] at h <;> simp only [] at h
  · cases h
  rcases h4 : next_u32_multiple_of_128 hd.data_fork_len with e4 | v4 <;>
    rw [h4] at h <;> simp only [] at h
  · cases h
  rcases h5 : c3.read_slice (v4 - hd.data_fork_len) with e5 | ⟨l5, c5⟩ <;>
    rw [h5] at h <;> simp only [] at h
  · cases h
  rcases h6 : c5.read_slice hd.rsrc_fork_len with e6 | ⟨l6, c6⟩ <;>
    rw [h6] at h <;> simp only [] at h
  · cases h
  cases h
  exact ⟨rfl, rfl⟩

/-- C6: during parse's header decode a filename-length byte outside `1..=31`
fails the whole parse with `BadValue`, and on success the header's filename
is exactly the first filename-length bytes of the 63-byte filename field. -/
theorem header_filename_length_check (data : List Nat) (v : Version)
    (hdet : detect data = some v) :
    (¬(1 ≤ u8At data 1 ∧ u8At data 1 ≤ 31) → parse data = .error .badValue) ∧
    (∀ mb, parse data = .ok mb →
      1 ≤ u8At data 1 ∧ u8At data 1 ≤ 31 ∧
      mb.header.filename = (data.drop 2).take (u8At data 1) ∧
      mb.header.filename.length = u8At data 1) := by
  have h128 := detect_length hdet
  constructor
  · intro h
    rw [parse_eq hdet, if_neg h]
  · intro mb hmb
    rw [parse_eq hdet] at hmb
    by_cases hf : 1 ≤ u8At data 1 ∧ u8At data 1 ≤ 31
    · rw [if_pos hf] at hmb
      by_cases hcrc : 2 ≤ v.num ∧ calc_crc (data.take 124) ≠ u16At data 124
      · rw [if_pos hcrc] at hmb; cases hmb
      · rw [if_neg hcrc] at hmb
        rcases hrf : MacBinary.read_forks ⟨⟨0, data⟩, 128⟩ v (mkHeader data)
          with e | p <;> rw [hrf] at hmb <;> simp only [Except.map] at hmb
        · cases hmb
        · cases hmb
          have hh := (read_forks_shape hrf).2
          have hfn : (mkHeader data).filename = (data.drop 2).take (u8At data 1) := by
            rw [mkHeader]
            rw [List.take_take, Nat.min_def, if_pos (by omega)]
          refine ⟨hf.1, hf.2, ?_, ?_⟩
          · rw [hh, hfn]
          · rw [hh, hfn]
            simp [List.length_take, List.length_drop]
            omega
    · rw [if_neg hf] at hmb; cases hmb

/-- Witness for C6: a version-III buffer whose filename-length byte is 40
is rejected with `BadValue`; on the valid buffer the parsed filename is the
single byte `A` (one byte of the 63-byte field). -/
theorem header_filename_length_check_witness :
    parse (bufIII.set 1 40) = .error .badValue ∧
    (⟨.III, mkHeader bufIII, [], []⟩ : MacBinary).header.filename =
      (bufIII.drop 2).take (u8At bufIII 1) := by
  constructor
  · exact (header_filename_length_check (bufIII.set 1 40) .III (by decide)).1 (by decide)
  · have hdet : detect bufIII = some .III := by decide
    have hcrc : ¬(2 ≤ Version.III.num ∧
        calc_crc (bufIII.take 124) ≠ u16At bufIII 124) := by
      rw [crc_bufIII]
      decide
    have hp : parse bufIII = .ok ⟨.III, mkHeader bufIII, [], []⟩ := by
      rw [parse_eq hdet, if_pos (by decide), if_neg hcrc]
      decide
    exact ((header_filename_length_check bufIII .III hdet).2 _ hp).2.2.1

/-- C9: `subarray` never fails: an out-of-range start index yields the
empty zero-length view, and an in-range index `i` yields a view of length
`n - i` over the same backing bytes shifted by `i` stride-sized elements. -/
theorem subarray_spec (size : Nat) (arr : ReadArray) (i : Nat) :
    (arr.length ≤ i → arr.subarray size i = ⟨ReadScope.new [], 0⟩) ∧
    (i < arr.length →
      arr.subarray size i =
        ⟨⟨arr.scope.base + i * size, arr.scope.data.drop (i * size)⟩,
          arr.length - i⟩) := by
  constructor
  · intro h
    rw [ReadArray.subarray, if_neg (by omega)]
  · intro h
    rw [ReadArray.subarray, if_pos h]
    rfl

/-- Witness for C9: a 2-element array of stride 2 over 4 bytes: index 5 is
out of range and yields the empty view, index 1 yields the 1-element tail. -/
theorem subarray_spec_witness :
    ReadArray.subarray 2 ⟨⟨0, [1, 2, 3, 4]⟩, 2⟩ 5 = ⟨ReadScope.new [], 0⟩ ∧
    ReadArray.subarray 2 ⟨⟨0, [1, 2, 3, 4]⟩, 2⟩ 1 = ⟨⟨2, [3, 4]⟩, 1⟩ := by
  constructor
  · exact (subarray_spec 2 ⟨⟨0, [1, 2, 3, 4]⟩, 2⟩ 5).1 (by decide)
  · have := (subarray_spec 2 ⟨⟨0, [1, 2, 3, 4]⟩, 2⟩ 1).2 (by decide)
    rw [this]
    rfl

/-- C4 counterexample: `TypeListItem::from` corrects the stored per-type
count with `wrapping_add(1)`, so the stored value 0xFFFF wraps to 0 instead
of failing with `Overflow` (the conversion is infallible and has no error
outcome at all): the claim that `stored + 1` always equals the true count
fails at 0xFFFF. -/
theorem typelist_item_count_wraps :
    (TypeListItem.ofRaw ⟨0x42425354⟩ 65535 0).num_rsrc = 0 ∧
    (TypeListItem.ofRaw ⟨0x42425354⟩ 65535 0).num_rsrc ≠ 65535 + 1 := by
  constructor
  · rfl
  · decide

/-- C4 (amended): the 16-bit type-list count is stored minus one and
corrected with an overflow-checked add (stored 0xFFFF fails with `Overflow`,
otherwise the decoded list has `stored + 1` entries); the per-type count is
likewise stored minus one but corrected with a wrapping add, so stored
values below 0xFFFF give `stored + 1` and 0xFFFF wraps to 0. -/
theorem typelist_counts :
    (∀ (c c' : ReadCtxt), c.read_u16be = .ok (65535, c') →
      TypeList.read c = .error .overflow) ∧
    (∀ (c : ReadCtxt) (p : TypeList × ReadCtxt), TypeList.read c = .ok p →
      u16At c.scope.data c.offset ≠ 65535 ∧
      p.1.list.length = u16At c.scope.data c.offset + 1) ∧
    (∀ (t : FourCC) (r n : Nat), n < 65535 →
      (TypeListItem.ofRaw t n r).num_rsrc = n + 1) ∧
    (∀ (t : FourCC) (r : Nat), (TypeListItem.ofRaw t 65535 r).num_rsrc = 0) := by
  refine ⟨?_, ?_, ?_, ?_⟩
  · intro c c' h
    simp [TypeList.read, h, bind, Except.bind]
  · intro c p h
    rw [TypeList.read] at h
    rcases h1 : c.read_u16be with e | ⟨stored, c1⟩ <;>
      rw [h1] at h <;> simp only [bind, Except.bind] at h
    · cases h
    have hst : stored = u16At c.scope.data c.offset := read_u16be_inv h1
    by_cases h65 : stored = 65535
    · rw [if_pos h65] at h; simp only [] at h; cases h
    · rw [if_neg h65] at h
      simp only [] at h
      rcases h2 : c1.read_array 8 (stored + 1) with e2 | pa <;>
        rw [h2] at h <;> simp only [] at h
      · cases h
      · cases h
        have hlen := (read_array_inv h2).1
        refine ⟨by omega, ?_⟩
        simp only []
        omega
  · intro t r n hn
    simp [TypeListItem.ofRaw, Nat.mod_eq_of_lt (by omega : n + 1 < 65536)]
  · intro t r
    rfl


/-- Witness for C4 at concrete inputs: a stored type count of 0xFFFF fails
with `Overflow`; a stored count of 0 decodes to a 1-entry list; stored
per-type count 7 gives 8, stored 0xFFFF wraps to 0. -/
theorem typelist_counts_witness :
    TypeList.read ⟨⟨0, [255, 255]⟩, 0⟩ = .error .overflow ∧
    (u16At [0, 0, 65, 66, 67, 68, 0, 0, 0, 0] 0 ≠ 65535 ∧
      ({ scope := ⟨0, [0, 0, 65, 66, 67, 68, 0, 0, 0, 0]⟩,
         list := ⟨⟨2, [65, 66, 67, 68, 0, 0, 0, 0]⟩, 1⟩ } : TypeList).list.length =
        u16At [0, 0, 65, 66, 67, 68, 0, 0, 0, 0] 0 + 1) ∧
    (TypeListItem.ofRaw ⟨1⟩ 7 0).num_rsrc = 7 + 1 ∧
    (TypeListItem.ofRaw ⟨1⟩ 65535 0).num_rsrc = 0 := by
  refine ⟨typelist_counts.1 ⟨⟨0, [255, 255]⟩, 0⟩ ⟨⟨0, [255, 255]⟩, 2⟩ (by decide),
    ?_, typelist_counts.2.2.1 ⟨1⟩ 0 7 (by decide), typelist_counts.2.2.2 ⟨1⟩ 0⟩
  exact typelist_counts.2.1 ⟨⟨0, [0, 0, 65, 66, 67, 68, 0, 0, 0, 0]⟩, 0⟩
    ({ scope := ⟨0, [0, 0, 65, 66, 67, 68, 0, 0, 0, 0]⟩,
       list := ⟨⟨2, [65, 66, 67, 68, 0, 0, 0, 0]⟩, 1⟩ },
     ⟨⟨0, [0, 0, 65, 66, 67, 68, 0, 0, 0, 0]⟩, 10⟩) (by decide)

/-- C5 (amended): on a script byte with the high bit set and nonzero low
7 bits the filename accessor hits `todo!` and panics (modelled as `none`) --
there is no first-class "not implemented" error value in the library's error
type; on every other script byte the filename is decoded from the
Mac-OS-Roman filename bytes. -/
theorem filename_script_behavior (mb : MacBinary) :
    (mb.header.script &&& 128 = 128 ∧ mb.header.script &&& 127 ≠ 0 →
      mb.filename = none) ∧
    (¬(mb.header.script &&& 128 = 128 ∧ mb.header.script &&& 127 ≠ 0) →
      mb.filename = some (fromMacRoman mb.header.filename)) := by
  constructor <;> intro h <;> simp [MacBinary.filename, h]

/-- Witness for C5: a header with script byte 0x81 panics (no value);
a header with script byte 0 decodes the filename. -/
theorem filename_script_behavior_witness :
    MacBinary.filename ⟨.III, mkHeader bufScript, [], []⟩ = none ∧
    MacBinary.filename ⟨.III, mkHeader bufIII, [], []⟩ =
      some (fromMacRoman (mkHeader bufIII).filename) :=
  ⟨(filename_script_behavior _).1 (by decide),
   (filename_script_behavior _).2 (by decide)⟩

/-- C5 counterexample: `bufScript` is a valid MacBinary III file whose
script byte is 0x81 (high bit set, low 7 bits nonzero); its filename
accessor does not produce any "not implemented" error value -- it diverges
through `todo!` (modelled as `none`), i.e. the call panics. -/
theorem filename_todo_counterexample :
    Except.map MacBinary.filename (parse bufScript) = .ok none := by
  have hdet : detect bufScript = some .III := by decide
  rw [parse_eq hdet, if_pos (by decide)]
  have hcrc : ¬(2 ≤ Version.III.num ∧
      calc_crc (bufScript.take 124) ≠ u16At bufScript 124) := by
    rw [crc_bufScript]
    decide
  rw [if_neg hcrc]
  decide


theorem read_slice_inv {c : ReadCtxt} {n : Nat} {p : List Nat × ReadCtxt}
    (h : c.read_slice n = .ok p) : p.2 = ⟨c.scope, c.offset + n⟩ := by
  rw [ReadCtxt.read_slice, ReadCtxt.read_scope] at h
  rcases ho : c.scope.offset_length c.offset n with e' | s <;> rw [ho] at h
  · cases h
  · simp only [Except.map] at h
    cases h
    rfl

theorem read_slice_append {b : Nat} {d : List Nat} {o n : Nat}
    {p : List Nat × ReadCtxt} (e : List Nat)
    (h : ReadCtxt.read_slice ⟨⟨b, d⟩, o⟩ n = .ok p) :
    ReadCtxt.read_slice ⟨⟨b, d ++ e⟩, o⟩ n = .ok (p.1, ⟨⟨b, d ++ e⟩, o + n⟩) := by
  rw [ReadCtxt.read_slice, ReadCtxt.read_scope] at h ⊢
  simp only [ReadScope.offset_length] at h ⊢
  rcases Nat.eq_zero_or_pos n with hn | hn
  · subst hn
    rw [if_pos (Or.inr rfl)] at h ⊢
    rw [if_pos (by simp)] at h ⊢
    simp only [Except.map, List.take_zero] at h ⊢
    cases h
    rfl
  · by_cases ho : o < d.length
    · by_cases hl : n ≤ (d.drop o).length
      · rw [if_pos (Or.inl ho), if_pos hl] at h
        simp only [Except.map] at h
        cases h
        have ho' : o < (d ++ e).length := by rw [List.length_append]; omega
        have hl' : n ≤ ((d ++ e).drop o).length := by
          rw [drop_append_le _ _ _ (by omega)]
          simp only [List.length_append, List.length_drop] at hl ⊢
          omega
        rw [if_pos (Or.inl ho'), if_pos hl']
        simp only [Except.map]
        have hvals : ((d ++ e).drop o).take n = (d.drop o).take n := by
          rw [drop_append_le _ _ _ (by omega), take_append_le _ _ _ hl]
        rw [hvals]
      · rw [if_pos (Or.inl ho), if_neg hl] at h
        cases h
    · rw [if_neg (by omega)] at h
      cases h

theorem read_forks_append {d : List Nat} {o : Nat} {v : Version} {hd : Header}
    {p : MacBinary × ReadCtxt} (e : List Nat)
    (h : MacBinary.read_forks ⟨⟨0, d⟩, o⟩ v hd = .ok p) :
    MacBinary.read_forks ⟨⟨0, d ++ e⟩, o⟩ v hd =
      .ok (p.1, ⟨⟨0, d ++ e⟩, p.2.offset⟩) := by
  rw [MacBinary.read_forks] at h ⊢
  rcases h1 : next_u16_multiple_of_128 hd.secondary_header_len with e1 | v1 <;>
    rw [h1] at h <;> simp only [bind, Except.bind] at h ⊢
  · cases h
  rcases h2 : ReadCtxt.read_slice ⟨⟨0, d⟩, o⟩ v1 with e2 | p2 <;> rw [h2] at h
  · simp only [] at h; cases h
  obtain ⟨l2, c2⟩ := p2
  have hc2 : c2 = ⟨⟨0, d⟩, o + v1⟩ := read_slice_inv h2
  subst hc2
  rw [read_slice_append e h2]
  simp only [] at h ⊢
  rcases h3 : ReadCtxt.read_slice ⟨⟨0, d⟩, o + v1⟩ hd.data_fork_len
    with e3 | p3 <;> rw [h3] at h
  · simp only [] at h; cases h
  obtain ⟨l3, c3⟩ := p3
  have hc3 : c3 = ⟨⟨0, d⟩, o + v1 + hd.data_fork_len⟩ := read_slice_inv h3
  subst hc3
  rw [read_slice_append e h3]
  simp only [] at h ⊢
  rcases h4 : next_u32_multiple_of_128 hd.data_fork_len with e4 | v4 <;>
    rw [h4] at h <;> simp only [] at h ⊢
  · cases h
  rcases h5 : ReadCtxt.read_slice ⟨⟨0, d⟩, o + v1 + hd.data_fork_len⟩
      (v4 - hd.data_fork_len) with e5 | p5 <;> rw [h5] at h
  · simp only [] at h; cases h
  obtain ⟨l5, c5⟩ := p5
  have hc5 : c5 = ⟨⟨0, d⟩, o + v1 + hd.data_fork_len + (v4 - hd.data_fork_len)⟩ :=
    read_slice_inv h5
  subst hc5
  rw [read_slice_append e h5]
  simp only [] at h ⊢
  rcases h6 : ReadCtxt.read_slice
      ⟨⟨0, d⟩, o + v1 + hd.data_fork_len + (v4 - hd.data_fork_len)⟩
      hd.rsrc_fork_len with e6 | p6 <;> rw [h6] at h
  · simp only [] at h; cases h
  obtain ⟨l6, c6⟩ := p6
  have hc6 : c6 = ⟨⟨0, d⟩,
      o + v1 + hd.data_fork_len + (v4 - hd.data_fork_len) + hd.rsrc_fork_len⟩ :=
    read_slice_inv h6
  subst hc6
  rw [read_slice_append e h6]
  simp only [] at h ⊢
  cases h
  rfl


theorem mkHeader_append (data e : List Nat) (h : 128 ≤ data.length) :
    mkHeader (data ++ e) = mkHeader data := by
  have hg : ∀ j, j < 128 → u8At (data ++ e) j = u8At data j :=
    fun j hj => getD_append_lt data e j 0 (by omega)
  have hfn : ((data ++ e).drop 2).take 63 = (data.drop 2).take 63 := by
    rw [drop_append_le _ _ _ (by omega),
      take_append_le _ _ _ (by simp [List.length_drop]; omega)]
  simp only [mkHeader, Header.mk.injEq]
  refine ⟨?_, ?_, ?_, ?_, ?_, ?_, ?_, ?_, ?_, ?_, ?_, ?_, ?_, ?_, ?_, ?_, ?_,
    ?_, ?_, ?_, ?_⟩
  · rw [hfn, hg 1 (by omega)]
  · exact u16At_congr 120 (hg 120 (by omega)) (hg 121 (by omega))
  · exact u32At_congr 83 (hg 83 (by omega)) (hg 84 (by omega)) (hg 85 (by omega))
      (hg 86 (by omega))
  · exact u32At_congr 87 (hg 87 (by omega)) (hg 88 (by omega)) (hg 89 (by omega))
      (hg 90 (by omega))
  · exact congrArg FourCC.mk (u32At_congr 65 (hg 65 (by omega)) (hg 66 (by omega))
      (hg 67 (by omega)) (hg 68 (by omega)))
  · exact congrArg FourCC.mk (u32At_congr 69 (hg 69 (by omega)) (hg 70 (by omega))
      (hg 71 (by omega)) (hg 72 (by omega)))
  · exact hg 73 (by omega)
  · exact u16At_congr 75 (hg 75 (by omega)) (hg 76 (by omega))
  · exact u16At_congr 77 (hg 77 (by omega)) (hg 78 (by omega))
  · exact u16At_congr 79 (hg 79 (by omega)) (hg 80 (by omega))
  · rw [hg 81 (by omega)]
  · exact u32At_congr 91 (hg 91 (by omega)) (hg 92 (by omega)) (hg 93 (by omega))
      (hg 94 (by omega))
  · exact u32At_congr 95 (hg 95 (by omega)) (hg 96 (by omega)) (hg 97 (by omega))
      (hg 98 (by omega))
  · exact u16At_congr 99 (hg 99 (by omega)) (hg 100 (by omega))
  · exact hg 101 (by omega)
  · exact congrArg FourCC.mk (u32At_congr 102 (hg 102 (by omega)) (hg 103 (by omega))
      (hg 104 (by omega)) (hg 105 (by omega)))
  · exact hg 106 (by omega)
  · exact hg 107 (by omega)
  · exact hg 122 (by omega)
  · exact hg 123 (by omega)
  · exact u16At_congr 124 (hg 124 (by omega)) (hg 125 (by omega))

/-- `detect` ignores everything after the first 128 bytes. -/
theorem detect_append (data e : List Nat) (h : 128 ≤ data.length) :
    detect (data ++ e) = detect data := by
  have hlen : 128 ≤ (data ++ e).length := by
    rw [List.length_append]; omega
  have e0 := getD_append_lt data e 0 0 (by omega)
  have e2 := getD_append_lt data e 2 0 (by omega)
  have e74 := getD_append_lt data e 74 0 (by omega)
  have e82 := getD_append_lt data e 82 0 (by omega)
  have etake : (data ++ e).take 124 = data.take 124 := take_append_le _ _ _ (by omega)
  have eslice : ((data ++ e).drop 101).take 25 = (data.drop 101).take 25 := by
    rw [drop_append_le _ _ _ (by omega),
      take_append_le _ _ _ (by simp [List.length_drop]; omega)]
  have eu16 : u16At (data ++ e) 124 = u16At data 124 :=
    u16At_congr 124 (getD_append_lt _ _ _ _ (by omega)) (getD_append_lt _ _ _ _ (by omega))
  have eu102 : u32At (data ++ e) 102 = u32At data 102 :=
    u32At_congr 102 (getD_append_lt _ _ _ _ (by omega)) (getD_append_lt _ _ _ _ (by omega))
      (getD_append_lt _ _ _ _ (by omega)) (getD_append_lt _ _ _ _ (by omega))
  have eu83 : u32At (data ++ e) 83 = u32At data 83 :=
    u32At_congr 83 (getD_append_lt _ _ _ _ (by omega)) (getD_append_lt _ _ _ _ (by omega))
      (getD_append_lt _ _ _ _ (by omega)) (getD_append_lt _ _ _ _ (by omega))
  have eu87 : u32At (data ++ e) 87 = u32At data 87 :=
    u32At_congr 87 (getD_append_lt _ _ _ _ (by omega)) (getD_append_lt _ _ _ _ (by omega))
      (getD_append_lt _ _ _ _ (by omega)) (getD_append_lt _ _ _ _ (by omega))
  rw [detect, detect, e0, e2, e74, e82, etake, eslice, eu16, eu102, eu83, eu87]
  simp only [eq_true hlen, eq_true h, true_and]

/-- C10: parse never requires the buffer to be fully consumed: appending any
extra bytes to a buffer that parse accepts leaves the result unchanged --
same version, same header, identical data-fork and resource-fork bytes --
because detect inspects only the first 128 bytes and parse reads only up to
the end of the resource fork. -/
theorem parse_ignores_trailing_bytes (data extra : List Nat) (mb : MacBinary)
    (h : parse data = .ok mb) : parse (data ++ extra) = .ok mb := by
  rcases hdet : detect data with _ | v
  · rw [parse, hdet] at h
    cases h
  have h128 := detect_length hdet
  have hdet' : detect (data ++ extra) = some v := by
    rw [detect_append data extra h128, hdet]
  rw [parse_eq hdet] at h
  rw [parse_eq hdet']
  have hu1 : u8At (data ++ extra) 1 = u8At data 1 :=
    getD_append_lt data extra 1 0 (by omega)
  have htake : (data ++ extra).take 124 = data.take 124 :=
    take_append_le _ _ _ (by omega)
  have hu16 : u16At (data ++ extra) 124 = u16At data 124 :=
    u16At_congr 124 (getD_append_lt _ _ _ _ (by omega))
      (getD_append_lt _ _ _ _ (by omega))
  have hmk : mkHeader (data ++ extra) = mkHeader data := mkHeader_append data extra h128
  rw [hu1, htake, hu16, hmk]
  by_cases hf : 1 ≤ u8At data 1 ∧ u8At data 1 ≤ 31
  · rw [if_pos hf] at h ⊢
    by_cases hcrc : 2 ≤ v.num ∧ calc_crc (data.take 124) ≠ u16At data 124
    · rw [if_pos hcrc] at h
      cases h
    · rw [if_neg hcrc] at h ⊢
      rcases hrf : MacBinary.read_forks ⟨⟨0, data⟩, 128⟩ v (mkHeader data)
        with e | p <;> rw [hrf] at h <;> simp only [Except.map] at h
      · cases h
      · cases h
        rw [read_forks_append extra hrf]
        rfl
  · rw [if_neg hf] at h
    cases h


/-- Witness for C10: appending a byte to the valid `bufIII` leaves the parse
result unchanged. -/
theorem parse_ignores_trailing_bytes_witness :
    parse bufIII = .ok ⟨.III, mkHeader bufIII, [], []⟩ ∧
    parse (bufIII ++ [7]) = .ok ⟨.III, mkHeader bufIII, [], []⟩ := by
  have hdet : detect bufIII = some .III := by decide
  have hcrc : ¬(2 ≤ Version.III.num ∧
      calc_crc (bufIII.take 124) ≠ u16At bufIII 124) := by
    rw [crc_bufIII]
    decide
  have hp : parse bufIII = .ok ⟨.III, mkHeader bufIII, [], []⟩ := by
    rw [parse_eq hdet, if_pos (by decide), if_neg hcrc]
    decide
  exact ⟨hp, parse_ignores_trailing_bytes bufIII [7] _ hp⟩

/-- C2 (amended).  First, for a detected buffer whose filename-length byte is
in `1..=31`, `parse` fails with `CrcMismatch` exactly when the version is II
or III and the CRC-16/XMODEM recomputed over the first 124 raw bytes differs
from the stored header CRC (so version I never yields `CrcMismatch`).
Second, corrupting a single byte among the first 124 of an accepted
version-II/III buffer makes `parse` fail with `CrcMismatch` provided the
corrupted buffer is still detected as version II or III and its
filename-length byte is still in `1..=31` (corruptions that break detection
fail with `BadVersion` instead -- see the counterexample).  Third, changing
a byte at index 126 or beyond (after the CRC field, or in the payload) never
causes `CrcMismatch`. -/
theorem crc_check_characterization :
    (∀ (data : List Nat) (v : Version), detect data = some v →
      1 ≤ u8At data 1 → u8At data 1 ≤ 31 →
      (parse data = .error .crcMismatch ↔
        2 ≤ v.num ∧ calc_crc (data.take 124) ≠ u16At data 124)) ∧
    (∀ (data : List Nat) (v v' : Version) (i x : Nat), Wf data →
      detect data = some v → 2 ≤ v.num →
      calc_crc (data.take 124) = u16At data 124 →
      i < 124 → x < 256 → x ≠ data.getD i 0 →
      detect (data.set i x) = some v' → 2 ≤ v'.num →
      1 ≤ u8At (data.set i x) 1 → u8At (data.set i x) 1 ≤ 31 →
      parse (data.set i x) = .error .crcMismatch) ∧
    (∀ (data : List Nat) (v : Version) (i x : Nat),
      detect data = some v →
      (2 ≤ v.num → calc_crc (data.take 124) = u16At data 124) →
      126 ≤ i →
      parse (data.set i x) ≠ .error .crcMismatch) := by
  refine ⟨?_, ?_, ?_⟩
  · intro data v hdet h1 h2
    rw [parse_eq hdet, if_pos ⟨h1, h2⟩]
    by_cases hcrc : 2 ≤ v.num ∧ calc_crc (data.take 124) ≠ u16At data 124
    · rw [if_pos hcrc]
      exact ⟨fun _ => hcrc, fun _ => rfl⟩
    · rw [if_neg hcrc]
      constructor
      · intro hmap
        exfalso
        rcases hrf : MacBinary.read_forks ⟨⟨0, data⟩, 128⟩ v (mkHeader data)
          with e | p <;> rw [hrf] at hmap <;> simp only [Except.map] at hmap
        · cases hmap
          exact read_forks_no_crc _ _ _ hrf
        · cases hmap
      · intro hc
        exact absurd hc hcrc
  · intro data v v' i x hw hdet hv hcrc hi hx hne hdet' hv' hf1 hf2
    have h128 := detect_length hdet
    rw [parse_eq hdet', if_pos ⟨hf1, hf2⟩]
    have htake : (data.set i x).take 124 = (data.take 124).set i x := List.set_take
    have hu16 : u16At (data.set i x) 124 = u16At data 124 :=
      u16At_congr 124 (getD_set_ne _ _ _ _ _ (by omega)) (getD_set_ne _ _ _ _ _ (by omega))
    have hwt : ∀ b ∈ data.take 124, b < 256 := fun b hb =>
      hw b ((List.take_sublist _ _).mem hb)
    have hitl : i < (data.take 124).length := by
      simp [List.length_take]
      omega
    have hgd : (data.take 124).getD i 0 = data.getD i 0 := getD_take _ _ _ _ (by omega)
    have hne' := calc_crc_set_ne (data.take 124) i x hwt hitl hx (by rw [hgd]; exact hne)
    have hgoal : calc_crc ((data.set i x).take 124) ≠ u16At (data.set i x) 124 := by
      rw [htake, hu16]
      intro heq
      exact hne' (heq.trans hcrc.symm)
    rw [if_pos ⟨hv', hgoal⟩]
  · intro data v i x hdet hcrc hi hcon
    have h128 := detect_length hdet
    have hdet' : detect (data.set i x) = some v := by
      rw [← hdet]
      exact (detect_congr (by simp [List.length_set])
        (fun j hj => (getD_set_ne data i j x 0 (by omega)).symm)).symm
    rw [parse_eq hdet'] at hcon
    by_cases hf : 1 ≤ u8At (data.set i x) 1 ∧ u8At (data.set i x) 1 ≤ 31
    · rw [if_pos hf] at hcon
      have hu16 : u16At (data.set i x) 124 = u16At data 124 :=
        u16At_congr 124 (getD_set_ne _ _ _ _ _ (by omega))
          (getD_set_ne _ _ _ _ _ (by omega))
      have htake : (data.set i x).take 124 = data.take 124 :=
        take_set_ge data i x 124 (by omega)
      have hnc : ¬(2 ≤ v.num ∧
          calc_crc ((data.set i x).take 124) ≠ u16At (data.set i x) 124) := by
        rw [htake, hu16]
        intro hcontra
        exact hcontra.2 (hcrc hcontra.1)
      rw [if_neg hnc] at hcon
      rcases hrf : MacBinary.read_forks ⟨⟨0, data.set i x⟩, 128⟩ v
          (mkHeader (data.set i x)) with e | p <;>
        rw [hrf] at hcon <;> simp only [Except.map] at hcon
      · cases hcon
        exact read_forks_no_crc _ _ _ hrf
      · cases hcon
    · rw [if_neg hf] at hcon
      cases hcon

/-- Witness for C2 at concrete inputs: on the valid `bufIII` the
characterization instantiates; corrupting byte 2 (still detected as III,
filename length intact) yields `CrcMismatch`; corrupting reserved byte 126
does not. -/
theorem crc_check_characterization_witness :
    (parse bufIII = .error .crcMismatch ↔
      2 ≤ Version.III.num ∧ calc_crc (bufIII.take 124) ≠ u16At bufIII 124) ∧
    parse (bufIII.set 2 66) = .error .crcMismatch ∧
    parse (bufIII.set 126 7) ≠ .error .crcMismatch := by
  refine ⟨crc_check_characterization.1 bufIII .III (by decide) (by decide) (by decide),
    ?_, ?_⟩
  · exact crc_check_characterization.2.1 bufIII .III .III 2 66 (by decide) (by decide)
      (by decide) (by rw [crc_bufIII]; decide) (by decide) (by decide) (by decide)
      (by decide) (by decide) (by decide) (by decide)
  · exact crc_check_characterization.2.2 bufIII .III 126 7 (by decide)
      (fun _ => by rw [crc_bufIII]; decide) (by decide)

/-- C2 counterexample: `bufIII` is accepted by `parse` as version III, but
corrupting header byte 0 (inside the first 124 bytes) makes `parse` fail
with `BadVersion`, not `CrcMismatch`: detection runs before the CRC check. -/
theorem crc_corruption_counterexample :
    detect bufIII = some Version.III ∧
    (parse bufIII).isOk = true ∧
    parse (bufIII.set 0 1) = .error .badVersion ∧
    ParseError.badVersion ≠ ParseError.crcMismatch := by
  have hdet : detect bufIII = some .III := by decide
  have hcrc : ¬(2 ≤ Version.III.num ∧
      calc_crc (bufIII.take 124) ≠ u16At bufIII 124) := by
    rw [crc_bufIII]
    decide
  refine ⟨hdet, ?_, by decide, by decide⟩
  rw [parse_eq hdet, if_pos (by decide), if_neg hcrc]
  decide

/-- Witness for C3: the concrete `bufIII` has 128 bytes, first byte zero and
`mBIN` at offset 102, and is detected as version III. -/
theorem detect_mbin_signature_witness :
    128 ≤ bufIII.length ∧ bufIII.getD 0 0 = 0 ∧ u32At bufIII 102 = MBIN_SIG ∧
    detect bufIII = some Version.III :=
  ⟨by decide, by decide, by decide,
    detect_mbin_signature bufIII (by decide) (by decide) (by decide)⟩


theorem typelist_read_inv {c : ReadCtxt} {p : TypeList × ReadCtxt}
    (h : TypeList.read c = .ok p) :
    p.1.list.scope.data.length = 8 * p.1.list.length := by
  rw [TypeList.read] at h
  rcases h1 : c.read_u16be with e | ⟨stored, c1⟩ <;>
    rw [h1] at h <;> simp only [bind, Except.bind] at h
  · cases h
  by_cases h65 : stored = 65535
  · rw [if_pos h65] at h
    simp only [] at h
    cases h
  · rw [if_neg h65] at h
    simp only [] at h
    rcases h2 : c1.read_array 8 (stored + 1) with e2 | pa <;>
      rw [h2] at h <;> simp only [] at h
    · cases h
    · cases h
      have hi := read_array_inv h2
      simp only []
      omega

theorem resourcemap_read_inv {c : ReadCtxt} {p : ResourceMap × ReadCtxt}
    (h : ResourceMap.read c = .ok p) :
    p.1.type_list.list.scope.data.length = 8 * p.1.type_list.list.length := by
  rw [ResourceMap.read] at h
  rcases h1 : c.read_slice 22 with e | ⟨l1, c1⟩ <;>
    rw [h1] at h <;> simp only [bind, Except.bind] at h
  · cases h
  rcases h2 : c1.read_u16be with e | ⟨attrs, c2⟩ <;>
    rw [h2] at h <;> simp only [] at h
  · cases h
  rcases h3 : c2.read_u16be with e | ⟨tlo, c3⟩ <;>
    rw [h3] at h <;> simp only [] at h
  · cases h
  rcases h4 : c3.read_u16be with e | ⟨nlo, c4⟩ <;>
    rw [h4] at h <;> simp only [] at h
  · cases h
  rcases h5 : TypeList.read ((c.curScope.offset tlo).ctxt) with e | ptl <;>
    rw [h5] at h <;> simp only [] at h
  · cases h
  cases h
  exact typelist_read_inv h5

theorem resourcefork_new_inv {data : List Nat} {fork : ResourceFork}
    (h : ResourceFork.new data = .ok fork) :
    fork.map.type_list.list.scope.data.length = 8 * fork.map.type_list.list.length := by
  rw [ResourceFork.new] at h
  rcases h1 : (ReadScope.new data).ctxt.read_u32be with e | ⟨data_offset, c1⟩ <;>
    rw [h1] at h <;> simp only [bind, Except.bind] at h
  · cases h
  rcases h2 : c1.read_u32be with e | ⟨map_offset, c2⟩ <;>
    rw [h2] at h <;> simp only [] at h
  · cases h
  rcases h3 : c2.read_u32be with e | ⟨data_len, c3⟩ <;>
    rw [h3] at h <;> simp only [] at h
  · cases h
  rcases h4 : c3.read_u32be with e | ⟨map_len, c4⟩ <;>
    rw [h4] at h <;> simp only [] at h
  · cases h
  rcases h5 : (ReadScope.new data).offset_length data_offset data_len with e | rsd <;>
    rw [h5] at h <;> simp only [] at h
  · cases h
  rcases h6 : (ReadScope.new data).offset_length map_offset map_len with e | mpd <;>
    rw [h6] at h <;> simp only [] at h
  · cases h
  rcases h7 : ResourceMap.read mpd.ctxt with e | pm <;>
    rw [h7] at h <;> simp only [] at h
  · cases h
  cases h
  exact resourcemap_read_inv h7

theorem typeListItemAt_isSome {arr : ReadArray} {i : Nat}
    (hinv : arr.scope.data.length = 8 * arr.length) (hi : i < arr.length) :
    (typeListItemAt arr i).isSome = true := by
  simp only [typeListItemAt, uncheckedAt]
  rw [if_pos (by omega : 8 * i + 4 ≤ arr.scope.data.length),
    if_pos (by omega : 8 * i + 4 + 2 ≤ arr.scope.data.length),
    if_pos (by omega : 8 * i + 6 + 2 ≤ arr.scope.data.length)]
  rfl

theorem referenceListItemAt_isSome {arr : ReadArray} {i : Nat}
    (hinv : arr.scope.data.length = 12 * arr.length) (hi : i < arr.length) :
    (referenceListItemAt arr i).isSome = true := by
  simp only [referenceListItemAt, uncheckedAt]
  rw [if_pos (by omega : 12 * i + 2 ≤ arr.scope.data.length),
    if_pos (by omega : 12 * i + 2 + 2 ≤ arr.scope.data.length),
    if_pos (by omega : 12 * i + 4 + 1 ≤ arr.scope.data.length),
    if_pos (by omega : 12 * i + 5 + 3 ≤ arr.scope.data.length),
    if_pos (by omega : 12 * i + 8 + 4 ≤ arr.scope.data.length)]
  rfl

theorem findTypeAux_isSome (arr : ReadArray) (t : FourCC)
    (hinv : arr.scope.data.length = 8 * arr.length) :
    ∀ (fuel i : Nat), i + fuel ≤ arr.length →
      (findTypeAux arr t i fuel).isSome = true
  | 0, i, _ => rfl
  | fuel + 1, i, h => by
    rw [findTypeAux]
    have hs := typeListItemAt_isSome hinv (i := i) (by omega)
    rcases hit : typeListItemAt arr i with _ | item
    · rw [hit] at hs
      cases hs
    · simp only []
      by_cases he : item.rsrc_type = t
      · rw [if_pos he]
        rfl
      · rw [if_neg he]
        exact findTypeAux_isSome arr t hinv fuel (i + 1) (by omega)

theorem findRefAux_isSome (arr : ReadArray) (id : Int)
    (hinv : arr.scope.data.length = 12 * arr.length) :
    ∀ (fuel i : Nat), i + fuel ≤ arr.length →
      (findRefAux arr id i fuel).isSome = true
  | 0, i, _ => rfl
  | fuel + 1, i, h => by
    rw [findRefAux]
    have hs := referenceListItemAt_isSome hinv (i := i) (by omega)
    rcases hit : referenceListItemAt arr i with _ | item
    · rw [hit] at hs
      cases hs
    · simp only []
      by_cases he : item.id = id
      · rw [if_pos he]
        rfl
      · rw [if_neg he]
        exact findRefAux_isSome arr id hinv fuel (i + 1) (by omega)

theorem reference_list_inv {item : TypeListItem} {scope : ReadScope}
    {rl : ReferenceList} (h : item.reference_list scope = some rl) :
    rl.list.scope.data.length = 12 * rl.list.length := by
  rw [TypeListItem.reference_list] at h
  rcases h2 : ReferenceList.read_dep ((scope.offset item.reference_list_offset).ctxt)
      item.num_rsrc with e | prl <;> rw [h2] at h <;>
    simp only [Except.toOption, Option.map] at h
  · cases h
  · rw [ReferenceList.read_dep] at h2
    rcases h3 : ((scope.offset item.reference_list_offset).ctxt).read_array 12
        item.num_rsrc with e3 | pa <;> rw [h3] at h2 <;>
      simp only [Except.map] at h2
    · cases h2
    · cases h2
      cases h
      have hi := read_array_inv h3
      simp only []
      omega

/-- C8: `get_resource` is total -- it never reaches the panic marker of the
unchecked iterator reads, on any resource fork that `ResourceFork::new`
accepts, for any `(type, id)` query -- and a missing type degrades to the
"no resource" answer `none` rather than a hard error. -/
theorem get_resource_total (data : List Nat) (fork : ResourceFork)
    (hnew : ResourceFork.new data = .ok fork) (t : FourCC) (id : Int) :
    (fork.get_resource t id).isSome = true ∧
    (fork.map.type_list.find t = some none → fork.get_resource t id = some none) := by
  have hinv := resourcefork_new_inv hnew
  constructor
  · rw [ResourceFork.get_resource, TypeList.find]
    have hfa := findTypeAux_isSome fork.map.type_list.list t hinv
      fork.map.type_list.list.length 0 (by omega)
    rcases hft : findTypeAux fork.map.type_list.list t 0
        fork.map.type_list.list.length with _ | oitem
    · rw [hft] at hfa
      cases hfa
    rcases oitem with _ | item
    · rfl
    simp only []
    rcases horl : item.reference_list fork.map.type_list.scope with _ | rl
    · rfl
    have hrlinv := reference_list_inv horl
    simp only [ReferenceList.find]
    have hfr := findRefAux_isSome rl.list id hrlinv rl.list.length 0 (by omega)
    rcases hfr2 : findRefAux rl.list id 0 rl.list.length with _ | oref
    · rw [hfr2] at hfr
      cases hfr
    rcases oref with _ | ref
    · rfl
    · rfl
  · intro h
    rw [ResourceFork.get_resource, h]

/-- Witness for C8: the concrete 54-byte fork `bufFork` parses; looking up
the absent type `ZZZZ` hits the "no resource" outcome without panicking. -/
theorem get_resource_total_witness :
    (bufForkParsed.get_resource ⟨0x5A5A5A5A⟩ 0).isSome = true ∧
    bufForkParsed.get_resource ⟨0x5A5A5A5A⟩ 0 = some none :=
  ⟨(get_resource_total bufFork bufForkParsed (by decide) ⟨0x5A5A5A5A⟩ 0).1,
   (get_resource_total bufFork bufForkParsed (by decide) ⟨0x5A5A5A5A⟩ 0).2 (by decide)⟩

end MacB
